import Mathlib

/-!
Verification of the github-oss-health data-collection and ranking engine.

Shallow embedding of the core services of the repository:
`GitHubClient` (app/utils/github_client.py), `DiscoveryService`
(app/services/discovery.py), `QueueManager` (app/services/queue_manager.py),
`DeepAnalysisService` (app/services/deep_analysis.py) and
`WatchlistGenerator` (app/services/watchlist_generator.py).

Conventions of the embedding:
* naive UTC datetimes are integers (seconds since the epoch);
  `timedelta.days` is floored division by 86400 (Python floors);
* Python floats are rationals; `round(x, n)` is round-half-to-even;
* fallible code returns `Except Err`; Python dictionaries whose key set
  matters are association lists and subscripting a missing key is a
  `KeyError`;
* upstream HTTP fetches are supplied as data (`Fetch`), one value per
  `client.get` call site, so a run of a pipeline is a pure function of the
  oracle describing what the network would have answered.
-/

/-- Python exception values that the modelled code can raise. -/
inductive Err where
  | keyError (key : String)
  | typeError (msg : String)
  | rateLimitExceeded (msg : String)
  | other (msg : String)
deriving DecidableEq, Repr

/-- `str(e)` for the modelled exceptions; `str` of a `KeyError` quotes the key. -/
def Err.str : Err → String
  | .keyError k => "\x27" ++ k ++ "\x27"
  | .typeError m => m
  | .rateLimitExceeded m => m
  | .other m => m

/-- Values stored in the stats dictionaries (`Dict[str, Any]`). -/
inductive PyVal where
  | vInt (i : Int)
  | vStr (s : String)
  | vNone
deriving DecidableEq, Repr

/-- `timedelta(seconds=sec).days`: Python floors toward minus infinity. -/
def tdDays (sec : Int) : Int := Int.fdiv sec 86400

/-- `int(x)` on a float/rational: truncation toward zero. -/
def pyIntTrunc (q : ℚ) : Int := Int.tdiv q.num (q.den : Int)

/-- Round-half-to-even to an integer, the rounding Python's `round` uses. -/
def roundHalfEven (q : ℚ) : ℤ :=
  let f := ⌊q⌋
  let r := q - (f : ℚ)
  if r < 1/2 then f
  else if 1/2 < r then f + 1
  else if f % 2 = 0 then f else f + 1

/-- Python `round(q, 3)`. -/
def pyRound3 (q : ℚ) : ℚ := (roundHalfEven (q * 1000) : ℚ) / 1000

/-- Python `round(q, 2)`. -/
def pyRound2 (q : ℚ) : ℚ := (roundHalfEven (q * 100) : ℚ) / 100

/-- Truthiness of an optional float: `None` and `0.0` are falsy. -/
def qTruthy : Option ℚ → Bool
  | none => false
  | some v => decide (v ≠ 0)

/-- Truthiness of an optional int: `None` and `0` are falsy. -/
def intTruthy : Option Int → Bool
  | none => false
  | some v => decide (v ≠ 0)

/-- Truthiness of an optional list (`if not data`): `None` and `[]` are falsy. -/
def listFalsy {α : Type} : Option (List α) → Bool
  | none => true
  | some l => l.isEmpty

/-- Insert into a descending-sorted list of integers. -/
def insertDesc (x : Int) : List Int → List Int
  | [] => [x]
  | y :: ys => if y < x then x :: y :: ys else y :: insertDesc x ys

/-- `sorted(l, reverse=True)`: sort integers in descending order. -/
def sortDesc (l : List Int) : List Int := l.foldr insertDesc []

/-- Insert into an ascending-sorted list of rationals. -/
def insertAsc (x : ℚ) : List ℚ → List ℚ
  | [] => [x]
  | y :: ys => if x < y then x :: y :: ys else y :: insertAsc x ys

/-- `sorted(l)` over floats. -/
def sortAsc (l : List ℚ) : List ℚ := l.foldr insertAsc []

/-- `statistics.median`: middle element of the sorted list, or the mean of
the two middle elements when the length is even. -/
def pyMedian (l : List ℚ) : ℚ :=
  let s := sortAsc l
  let n := s.length
  if n % 2 = 1 then s.getD (n / 2) 0
  else (s.getD (n / 2 - 1) 0 + s.getD (n / 2) 0) / 2

/-- A Python `datetime` is either timezone-naive or timezone-aware; both
carry the instant as UTC seconds.  Subtracting mixed kinds is a
`TypeError` in Python, which the embedding mirrors. -/
inductive PyDateTime where
  | naive (sec : Int)
  | aware (sec : Int)
deriving DecidableEq, Repr

/-- `datetime.fromisoformat(s.replace("Z", "+00:00"))`: GitHub timestamps
carry an explicit offset, so the parse yields an aware datetime. -/
def parseGithubDatetime (sec : Int) : PyDateTime := .aware sec

/-- `.replace(tzinfo=None)`: drop the timezone, keeping the clock reading. -/
def replaceTzinfoNone : PyDateTime → PyDateTime
  | .naive s => .naive s
  | .aware s => .naive s

/-- `(a - b).total_seconds()`: defined for two naive or two aware datetimes;
mixing the two kinds raises `TypeError`. -/
def dtSub : PyDateTime → PyDateTime → Except Err ℚ
  | .naive a, .naive b => .ok ((a : ℚ) - (b : ℚ))
  | .aware a, .aware b => .ok ((a : ℚ) - (b : ℚ))
  | _, _ => .error (.typeError "cannot subtract offset-naive and offset-aware datetimes")

/-- Python `s.startswith(pre)`, via character lists so that the kernel can
evaluate it on concrete strings. -/
def pyStartsWith (s pre : String) : Bool := pre.toList.isPrefixOf s.toList

/-- Subscripting a Python dict modelled as an association list:
a missing key raises `KeyError`.  -/
def dictGet (d : List (String × PyVal)) (k : String) : Except Err PyVal :=
  match d.find? (fun p => p.1 == k) with
  | some p => .ok p.2
  | none => .error (.keyError k)

namespace GitHubClient

/-- Mutable rate-limit bookkeeping of `GitHubClient`
(github_client.py, `__init__`). -/
structure ClientState where
  coreRemaining : Option Int
  coreReset : Option Int
  searchRemaining : Option Int
  searchReset : Option Int
  totalRequests : Int
deriving DecidableEq, Repr

/-- One upstream HTTP response, as the client reads it: status code and the
rate-limit headers.  The parsed JSON body is left abstract (`body`). -/
structure HttpResponse where
  statusCode : Nat
  rateLimitRemaining : Option Int
  rateLimitReset : Option Int
  retryAfter : Option Int
  body : PyVal
deriving DecidableEq, Repr

/-- `_update_rate_limit`: route the `X-RateLimit-*` headers to the search- or
core-class tracker according to the endpoint path. -/
def updateRateLimit (st : ClientState) (resp : HttpResponse) (endpoint : String) : ClientState :=
  match resp.rateLimitRemaining with
  | none => st
  | some remaining =>
    let resetTime := resp.rateLimitReset.getD 0
    if pyStartsWith endpoint "search/" then
      { st with searchRemaining := some remaining, searchReset := some resetTime }
    else
      { st with coreRemaining := some remaining, coreReset := some resetTime }

/-- `_check_rate_limit`: for `search/` endpoints only log a warning; for
core endpoints raise `GitHubRateLimitExceeded` when the tracked remaining
count is strictly below the safety threshold. -/
def checkRateLimit (safetyThreshold : Int) (st : ClientState) (endpoint : String) :
    Except Err Unit :=
  if pyStartsWith endpoint "search/" then
    .ok ()
  else
    match st.coreRemaining with
    | some r =>
      if r < safetyThreshold then
        .error (.rateLimitExceeded "Core API rate limit safety threshold reached")
      else .ok ()
    | none => .ok ()

/-- Outcome of `get` together with the updated client state and the number
of HTTP requests the call issued. -/
structure GetResult where
  state : ClientState
  requestsIssued : Nat
  result : Except Err (Option PyVal)
deriving Repr

/-- The retry loop of `get` (`for attempt in range(max_retries)`), with the
successive HTTP responses supplied by the oracle list.  Each iteration
issues one request, updates the trackers, then handles 403 (primary limit
when remaining is 0, otherwise secondary-limit backoff and retry),
normalizes 404 to `None`, raises on other error statuses, and returns the
body on success. -/
def getLoop (st : ClientState) (endpoint : String) (maxRetries : Nat) :
    List HttpResponse → Nat → Nat → GetResult
  | [], _, issued => { state := st, requestsIssued := issued, result := .error (.other "no response") }
  | resp :: rest, attempt, issued =>
    let st1 := { st with totalRequests := st.totalRequests + 1 }
    let st2 := updateRateLimit st1 resp endpoint
    if resp.statusCode = 403 then
      if resp.rateLimitRemaining = some 0 then
        { state := st2, requestsIssued := issued + 1,
          result := .error (.rateLimitExceeded "Primary rate limit exceeded") }
      else if attempt + 1 < maxRetries then
        getLoop st2 endpoint maxRetries rest (attempt + 1) (issued + 1)
      else
        { state := st2, requestsIssued := issued + 1,
          result := .error (.rateLimitExceeded "Secondary rate limit exceeded after max retries") }
    else if resp.statusCode = 404 then
      { state := st2, requestsIssued := issued + 1, result := .ok none }
    else if 400 ≤ resp.statusCode then
      { state := st2, requestsIssued := issued + 1,
        result := .error (.other "HTTP error") }
    else
      { state := st2, requestsIssued := issued + 1, result := .ok (some resp.body) }

/-- `GitHubClient.get`: run `_check_rate_limit` first — a failed check
raises before any HTTP request is issued — then enter the retry loop. -/
def get (safetyThreshold : Int) (st : ClientState) (endpoint : String)
    (responses : List HttpResponse) (maxRetries : Nat := 3) : GetResult :=
  match checkRateLimit safetyThreshold st endpoint with
  | .error e => { state := st, requestsIssued := 0, result := .error e }
  | .ok () => getLoop st endpoint maxRetries responses 0 0

/-- `get_stats`: the statistics dictionary, with exactly the keys the
source builds (`total_requests`, `core_remaining`, `core_reset`,
`search_remaining`, `search_reset`).  Reset instants are rendered to their
ISO string when present. -/
def getStats (st : ClientState) : List (String × PyVal) :=
  [("total_requests", .vInt st.totalRequests),
   ("core_remaining", match st.coreRemaining with | some r => .vInt r | none => .vNone),
   ("core_reset", match st.coreReset with | some t => .vStr (toString t) | none => .vNone),
   ("search_remaining", match st.searchRemaining with | some r => .vInt r | none => .vNone),
   ("search_reset", match st.searchReset with | some t => .vStr (toString t) | none => .vNone)]

end GitHubClient

namespace DiscoveryService

/-- The fields of one GitHub search item that discovery reads
(`repo_data` in discovery.py).  Timestamps are parsed to naive UTC
seconds; identity strings are elided, the numeric GitHub id identifies the
repo. -/
structure RepoData where
  githubId : Nat
  stars : Int
  forks : Int
  createdAt : Int
  pushedAt : Int
  archived : Bool
  fork : Bool
deriving DecidableEq, Repr

/-- The universe-criteria settings read from configuration
(config.py: `min_stars`, `max_age_months`, `max_days_since_push`). -/
structure DiscSettings where
  minStars : Int
  maxAgeMonths : Int
  maxDaysSincePush : Int
deriving DecidableEq, Repr

/-- `_is_eligible`: stars at least `min_stars`, created within
`max_age_months * 30` days, not archived, not a fork, pushed within
`max_days_since_push` days. -/
def isEligible (cfg : DiscSettings) (now : Int) (d : RepoData) : Bool :=
  decide (cfg.minStars ≤ d.stars) &&
  decide (now - cfg.maxAgeMonths * 30 * 86400 ≤ d.createdAt) &&
  !d.archived &&
  !d.fork &&
  decide (now - cfg.maxDaysSincePush * 86400 ≤ d.pushedAt)

/-- The stats dictionary accumulated by `DiscoveryService.run`. -/
structure DiscoveryStats where
  reposFound : Nat
  reposEligible : Nat
  reposIneligible : Nat
  newRepos : Nat
  updatedRepos : Nat
  requestsMade : Option PyVal
  rateLimitRemaining : Option PyVal
deriving DecidableEq, Repr

/-- The JobRun row as discovery closes it: status, persisted stats and the
error message (the start/end timestamps are irrelevant to the claims). -/
structure JobRunRec where
  jobType : String
  status : String
  statsJson : Option DiscoveryStats
  errorMessage : Option String
deriving DecidableEq, Repr

/-- The per-repo loop body of `run`: count eligible/ineligible and
new/updated (the upsert makes a repo existing for later iterations, since
each pair is committed), and append one discovery snapshot.  The store
state is the list of known GitHub ids plus the snapshot count; these
operations raise nothing, matching the run the claim quantifies over. -/
def processRepo (cfg : DiscSettings) (now : Int)
    (acc : List Nat × Nat × DiscoveryStats) (d : RepoData) :
    List Nat × Nat × DiscoveryStats :=
  let (knownIds, snapshots, stats) := acc
  let eligible := isEligible cfg now d
  let stats := if eligible
    then { stats with reposEligible := stats.reposEligible + 1 }
    else { stats with reposIneligible := stats.reposIneligible + 1 }
  let stats := if knownIds.contains d.githubId
    then { stats with updatedRepos := stats.updatedRepos + 1 }
    else { stats with newRepos := stats.newRepos + 1 }
  let knownIds := if knownIds.contains d.githubId then knownIds else knownIds ++ [d.githubId]
  (knownIds, snapshots + 1, stats)

/-- `DiscoveryService.run`, for a run in which search pagination returned
`reposData` without raising and every upsert and snapshot write succeeds:
process each repo, then read `get_stats()` and copy
`client_stats["total_requests"]` and `client_stats["remaining_calls"]`
into the stats; close the JobRun `completed` on success, and on any
exception close it `failed` with the stats collected so far and rethrow. -/
def run (cfg : DiscSettings) (now : Int) (knownIds : List Nat)
    (client : GitHubClient.ClientState) (reposData : List RepoData) :
    JobRunRec × Except Err DiscoveryStats :=
  let stats0 : DiscoveryStats :=
    { reposFound := reposData.length, reposEligible := 0, reposIneligible := 0,
      newRepos := 0, updatedRepos := 0, requestsMade := none, rateLimitRemaining := none }
  let (_, _, stats1) := reposData.foldl (processRepo cfg now) (knownIds, 0, stats0)
  let clientStats := GitHubClient.getStats client
  match dictGet clientStats "total_requests" with
  | .error e =>
    ({ jobType := "discovery", status := "failed", statsJson := some stats1,
       errorMessage := some e.str }, .error e)
  | .ok v =>
    let stats2 := { stats1 with requestsMade := some v }
    match dictGet clientStats "remaining_calls" with
    | .error e =>
      ({ jobType := "discovery", status := "failed", statsJson := some stats2,
         errorMessage := some e.str }, .error e)
    | .ok v2 =>
      let stats3 := { stats2 with rateLimitRemaining := some v2 }
      ({ jobType := "discovery", status := "completed", statsJson := some stats3,
         errorMessage := none }, .ok stats3)

end DiscoveryService

namespace QueueManager

/-- The Repo columns the queue manager reads. -/
structure QRepo where
  id : Nat
  eligible : Bool
  firstDiscoveredAt : Int
  pushedAt : Int
deriving DecidableEq, Repr

/-- A discovery snapshot as the queue manager reads it. -/
structure DSnap where
  snapshotDate : Int
  stars : Int
deriving DecidableEq, Repr

/-- A deep snapshot as the queue manager reads it (only its date). -/
structure DeepSnapDate where
  snapshotDate : Int
deriving DecidableEq, Repr

/-- A RepoQueue row. -/
structure QueueEntry where
  repoId : Nat
  priority : Int
  priorityReason : String
  queuedAt : Int
  processed : Bool
  processedAt : Option Int
deriving DecidableEq, Repr

/-- The store as the queue manager sees it.  `discSnapsDesc` returns a
repo's discovery snapshots newest first and `latestDeep` its latest deep
snapshot, mirroring the ordered queries of `_get_star_velocity` and
`_is_stale`; `refresh_queue` mutates only `queue`. -/
structure QMDB where
  repos : List QRepo
  discSnapsDesc : Nat → List DSnap
  latestDeep : Nat → Option DeepSnapDate
  queue : List QueueEntry

/-- `_get_star_velocity`: stars per day between the two most recent
discovery snapshots; 0 when fewer than two exist or the day delta is not
positive. -/
def getStarVelocity (snaps : List DSnap) : ℚ :=
  match snaps with
  | recent :: older :: _ =>
    let starDiff : ℚ := (recent.stars : ℚ) - (older.stars : ℚ)
    let timeDiffDays : ℚ := ((recent.snapshotDate : ℚ) - (older.snapshotDate : ℚ)) / 86400
    if 0 < timeDiffDays then starDiff / timeDiffDays else 0
  | _ => 0

/-- `_is_newly_eligible`: first discovered at most 14 days ago. -/
def isNewlyEligible (now : Int) (r : QRepo) : Bool :=
  decide (tdDays (now - r.firstDiscoveredAt) ≤ 14)

/-- `_has_activity_spike`: pushed at most 3 days ago. -/
def hasActivitySpike (now : Int) (r : QRepo) : Bool :=
  decide (tdDays (now - r.pushedAt) ≤ 3)

/-- `_is_stale`: no deep snapshot yet, or the latest is 30 or more days
old. -/
def isStale (now : Int) (latest : Option DeepSnapDate) : Bool :=
  match latest with
  | none => true
  | some s => decide (30 ≤ tdDays (now - s.snapshotDate))

/-- `_calculate_priority`: the first matching class wins, top to bottom. -/
def calcPriority (now : Int) (db : QMDB) (r : QRepo) : Int × String :=
  if isNewlyEligible now r then (10, "newly_eligible")
  else
    let starVelocity := getStarVelocity (db.discSnapsDesc r.id)
    if 10 < starVelocity then
      (8, "high_momentum_" ++ toString (pyIntTrunc starVelocity) ++ "_stars_per_day")
    else if hasActivitySpike now r then (7, "recent_activity_spike")
    else if isStale now (db.latestDeep r.id) then (5, "stale_analysis")
    else (3, "regular_refresh")

/-- The deletion predicate of step 1 of `refresh_queue`: processed entries
whose `processed_at` is older than 7 days (a NULL `processed_at` never
compares below the cutoff). -/
def shouldClear (now : Int) (e : QueueEntry) : Bool :=
  e.processed &&
    (match e.processedAt with
     | some t => decide (t < now - 7 * 86400)
     | none => false)

/-- The row filter of the `existing` query of the refresh loop:
`repo_id == rid AND processed == False`. -/
def isUnprocFor (rid : Nat) (e : QueueEntry) : Bool :=
  decide (e.repoId = rid) && !e.processed

/-- Mutate the first unprocessed entry of a given repo: update priority and
reason when the priority changed (the `Bool` records whether an update
happened); `none` when no unprocessed entry for the repo exists. -/
def applyFirst (rid : Nat) (p : Int) (reason : String) :
    List QueueEntry → Option (List QueueEntry × Bool)
  | [] => none
  | e :: rest =>
    if isUnprocFor rid e then
      if e.priority ≠ p then
        some ({ e with priority := p, priorityReason := reason } :: rest, true)
      else some (e :: rest, false)
    else
      match applyFirst rid p reason rest with
      | some (rest2, b) => some (e :: rest2, b)
      | none => none

/-- Stats returned by `refresh_queue`. -/
structure RefreshStats where
  clearedProcessed : Nat
  addedToQueue : Nat
  updatedPriorities : Nat
deriving DecidableEq, Repr

/-- The loop body of step 2 of `refresh_queue` for one eligible repo:
compute the priority, then either update the existing unprocessed entry
(only when the priority changed) or insert a fresh unprocessed entry. -/
def refreshStep (now : Int) (db : QMDB)
    (acc : List QueueEntry × RefreshStats) (r : QRepo) :
    List QueueEntry × RefreshStats :=
  let (queue, stats) := acc
  let (priority, reason) := calcPriority now db r
  match applyFirst r.id priority reason queue with
  | some (queue2, updated) =>
    (queue2, if updated
      then { stats with updatedPriorities := stats.updatedPriorities + 1 }
      else stats)
  | none =>
    (queue ++ [{ repoId := r.id, priority := priority, priorityReason := reason,
                 queuedAt := now, processed := false, processedAt := none }],
     { stats with addedToQueue := stats.addedToQueue + 1 })

/-- `refresh_queue`: delete old processed entries, then walk all eligible
repos inserting or re-prioritizing their unprocessed entry; returns the
updated store and the stats. -/
def refreshQueue (now : Int) (db : QMDB) : QMDB × RefreshStats :=
  let cleared := (db.queue.filter (shouldClear now)).length
  let queue0 := db.queue.filter (fun e => !shouldClear now e)
  let stats0 : RefreshStats :=
    { clearedProcessed := cleared, addedToQueue := 0, updatedPriorities := 0 }
  let (queue1, stats1) :=
    (db.repos.filter (·.eligible)).foldl (refreshStep now db) (queue0, stats0)
  ({ db with queue := queue1 }, stats1)

/-- The number of unprocessed queue entries of a repo. -/
def countUnproc (q : List QueueEntry) (rid : Nat) : Nat :=
  q.countP (isUnprocFor rid)

/-- The first unprocessed queue entry of a repo, in store order — the
`existing` row the refresh loop reads. -/
def firstUnproc (q : List QueueEntry) (rid : Nat) : Option QueueEntry :=
  q.find? (isUnprocFor rid)

end QueueManager

namespace DeepAnalysisService

/-- One weekly commit-activity bucket (`{week, days[], total}`); only
`total` is read. -/
structure Week where
  total : Int
deriving DecidableEq, Repr

/-- One all-time contributor-stats record; only `total` is read. -/
structure Contributor where
  total : Int
deriving DecidableEq, Repr

/-- One closed issue/PR list item: its number, creation instant (UTC
seconds behind the ISO string) and whether the raw payload carries a
`pull_request` sub-field. -/
structure IssueItem where
  number : Nat
  createdAt : Int
  isPullRequest : Bool
deriving DecidableEq, Repr

/-- One issue comment: author association and creation instant. -/
structure CommentItem where
  authorAssociation : String
  createdAt : Int
deriving DecidableEq, Repr

/-- The repo summary fields adoption reads. -/
structure RepoSummary where
  stargazersCount : Int
  forksCount : Int
deriving DecidableEq, Repr

/-- The outcome of one `client.get` call site, supplied by the oracle: the
parsed payload (`none` for a 404), a `GitHubRateLimitExceeded`, or any
other upstream exception. -/
inductive Fetch (α : Type) where
  | ok (v : α)
  | rateLimited
  | failUpstream (msg : String)
deriving Repr

/-- Perform one modelled `client.get`: produce the value or the raised
exception, and count one request (a throttled call may abort before or
after its HTTP request; the count is only compared against the run budget,
which no analysed scenario approaches). -/
def fetchCall {α : Type} (f : Fetch α) (n : Nat) : Except Err α × Nat :=
  match f with
  | .ok v => (.ok v, n + 1)
  | .rateLimited => (.error (.rateLimitExceeded "Primary rate limit exceeded"), n + 1)
  | .failUpstream m => (.error (.other m), n + 1)

/-- Everything the upstream would answer for one repo's deep analysis, one
field per `client.get` call site of `analyze_repo` (the commit-activity
endpoint is called twice — once per helper — hence two fields). -/
structure RepoFetch where
  commitActivityContrib : Fetch (Option (List Week))
  contributorStats : Fetch (Option (List Contributor))
  commitActivityVelocity : Fetch (Option (List Week))
  weeklySearch : Nat → Fetch (Option Int) × Fetch (Option Int)
  closedIssues : Fetch (Option (List IssueItem))
  comments : Nat → Fetch (Option (List CommentItem))
  repoSummary : Fetch (Option RepoSummary)
  language : Option String

/-- The grouping loop of `_get_contributors_last_6_months`
(`for i in range(0, len(recent_weeks), 4)`): sum each 4-week slice's
`total`s (the last slice holds the 1–3 leftover weeks), emitting
`total if total > 0 else 0`. -/
def monthlyActive : List Week → List Int
  | [] => []
  | a :: b :: c :: d :: rest =>
    let total := a.total + b.total + c.total + d.total
    (if 0 < total then total else 0) :: monthlyActive rest
  | ws =>
    let total := (ws.map (fun w => w.total)).sum
    [if 0 < total then total else 0]

/-- The contribution-distribution block computed from the all-time
contributor stats. -/
structure Dist where
  totalContributors : Nat
  topContributorCommits : Int
  top1Share : ℚ
  top5Share : ℚ
deriving DecidableEq, Repr

/-- Compute the contribution distribution: `None` when the commit total is
not positive, otherwise top-1 and top-5 shares of the descending-sorted
per-contributor totals, rounded to 3 decimals. -/
def distOf (contribs : List Contributor) : Option Dist :=
  let totalCommits := (contribs.map (fun c => c.total)).sum
  if 0 < totalCommits then
    let contributions := sortDesc (contribs.map (fun c => c.total))
    let top1Share : ℚ :=
      if 0 < contributions.length then (contributions.headD 0 : ℚ) / (totalCommits : ℚ) else 0
    let top5Share : ℚ :=
      if 5 ≤ contributions.length then (((contributions.take 5).sum : Int) : ℚ) / (totalCommits : ℚ)
      else ((contributions.sum : Int) : ℚ) / (totalCommits : ℚ)
    some { totalContributors := contribs.length,
           topContributorCommits := contributions.headD 0,
           top1Share := pyRound3 top1Share,
           top5Share := pyRound3 top5Share }
  else none

/-- The dictionary `_get_contributors_last_6_months` returns. -/
structure ContribResult where
  monthlyContributors : Option (List Int)
  distribution : Option Dist
  availability : String
  reason : Option String
deriving DecidableEq, Repr

/-- The early return when commit activity is missing or empty. -/
def contribNotAvailable : ContribResult :=
  { monthlyContributors := none, distribution := none,
    availability := "not_available",
    reason := some "GitHub statistics not available for this repo" }

/-- The early return when contributor stats are missing or empty. -/
def contribPartialStats : ContribResult :=
  { monthlyContributors := none, distribution := none,
    availability := "partial", reason := some "Contributor stats not available" }

/-- The `except Exception` return of the contributor-health helper. -/
def contribError (e : Err) : ContribResult :=
  { monthlyContributors := none, distribution := none,
    availability := "error", reason := some e.str }

/-- The `try` body of `_get_contributors_last_6_months`: fetch commit
activity, keep the last 26 weekly buckets, fetch contributor stats, then
compute the monthly-active grouping and the distribution. -/
def contribBody (rf : RepoFetch) (n : Nat) : Except Err ContribResult × Nat :=
  match fetchCall rf.commitActivityContrib n with
  | (.error e, n1) => (.error e, n1)
  | (.ok dataOpt, n1) =>
    if listFalsy dataOpt then (.ok contribNotAvailable, n1)
    else
      let data := dataOpt.getD []
      let recentWeeks := if 26 ≤ data.length then data.drop (data.length - 26) else data
      match fetchCall rf.contributorStats n1 with
      | (.error e, n2) => (.error e, n2)
      | (.ok contribsOpt, n2) =>
        if listFalsy contribsOpt then (.ok contribPartialStats, n2)
        else
          (.ok { monthlyContributors := some (monthlyActive recentWeeks),
                 distribution := distOf (contribsOpt.getD []),
                 availability := "available", reason := none }, n2)

/-- `_get_contributors_last_6_months`: the body under a bare
`except Exception` handler, so every exception — `GitHubRateLimitExceeded`
included — is swallowed into an availability `"error"` result. -/
def getContributors6m (rf : RepoFetch) (n : Nat) : ContribResult × Nat :=
  match contribBody rf n with
  | (.ok r, n1) => (r, n1)
  | (.error e, n1) => (contribError e, n1)

/-- `calculate_slope`: simple linear regression slope over indices
`0..n-1`; `None` for fewer than two points, `0` when the denominator
vanishes. -/
def calculateSlope (data : List Int) : Option ℚ :=
  if data.length < 2 then none
  else
    let n : ℚ := (data.length : ℚ)
    let xs : List ℚ := (List.range data.length).map (fun i => (i : ℚ))
    let ys : List ℚ := data.map (fun y => (y : ℚ))
    let xMean := xs.sum / n
    let yMean := ys.sum / n
    let numerator := ((xs.zip ys).map (fun p => (p.1 - xMean) * (p.2 - yMean))).sum
    let denominator := (xs.map (fun x => (x - xMean) ^ 2)).sum
    some (if denominator ≠ 0 then numerator / denominator else 0)

/-- The dictionary `_get_weekly_activity_12_weeks` returns. -/
structure VelocityResult where
  weeklyCommits : Option (List Int)
  weeklyPrs : Option (List Int)
  weeklyIssues : Option (List Int)
  commitTrendSlope : Option ℚ
  prTrendSlope : Option ℚ
  issueTrendSlope : Option ℚ
  availability : String
  reason : Option String
deriving DecidableEq, Repr

/-- The `except Exception` return of the velocity helper. -/
def velocityError (e : Err) : VelocityResult :=
  { weeklyCommits := none, weeklyPrs := none, weeklyIssues := none,
    commitTrendSlope := none, prTrendSlope := none, issueTrendSlope := none,
    availability := "error", reason := some e.str }

/-- The `for week_offset in range(12)` loop: two search calls per week (PR
count then issue count); a missing payload counts as 0. -/
def weeklyLoop (ws : Nat → Fetch (Option Int) × Fetch (Option Int)) :
    List Nat → Nat → Except Err (List Int × List Int) × Nat
  | [], n => (.ok ([], []), n)
  | i :: rest, n =>
    match fetchCall (ws i).1 n with
    | (.error e, n1) => (.error e, n1)
    | (.ok prOpt, n1) =>
      let prCount := prOpt.getD 0
      match fetchCall (ws i).2 n1 with
      | (.error e, n2) => (.error e, n2)
      | (.ok issOpt, n2) =>
        let issCount := issOpt.getD 0
        match weeklyLoop ws rest n2 with
        | (.ok (prs, issues), n3) => (.ok (prCount :: prs, issCount :: issues), n3)
        | (.error e, n3) => (.error e, n3)

/-- The `try` body of `_get_weekly_activity_12_weeks`: last 12 weekly
commit buckets, 24 weekly search counts, then the three regression
slopes. -/
def velocityBody (rf : RepoFetch) (n : Nat) : Except Err VelocityResult × Nat :=
  match fetchCall rf.commitActivityVelocity n with
  | (.error e, n1) => (.error e, n1)
  | (.ok caOpt, n1) =>
    let weeklyCommits : Option (List Int) :=
      if listFalsy caOpt then none
      else
        let totals := (caOpt.getD []).map (fun w => w.total)
        some (totals.drop (totals.length - 12))
    match weeklyLoop rf.weeklySearch (List.range 12) n1 with
    | (.error e, n2) => (.error e, n2)
    | (.ok (weeklyPrs, weeklyIssues), n2) =>
      (.ok { weeklyCommits := weeklyCommits,
             weeklyPrs := some weeklyPrs, weeklyIssues := some weeklyIssues,
             commitTrendSlope :=
               if listFalsy weeklyCommits then none
               else calculateSlope (weeklyCommits.getD []),
             prTrendSlope := calculateSlope weeklyPrs,
             issueTrendSlope := calculateSlope weeklyIssues,
             availability := "available", reason := none }, n2)

/-- `_get_weekly_activity_12_weeks`: re-raise `GitHubRateLimitExceeded`,
swallow any other exception into an availability `"error"` result. -/
def getWeeklyActivity (rf : RepoFetch) (n : Nat) : Except Err VelocityResult × Nat :=
  match velocityBody rf n with
  | (.ok r, n1) => (.ok r, n1)
  | (.error (.rateLimitExceeded m), n1) => (.error (.rateLimitExceeded m), n1)
  | (.error e, n1) => (.ok (velocityError e), n1)

/-- The dictionary `_get_responsiveness` returns. -/
structure RespResult where
  medianIssueResponseHours : Option ℚ
  medianPrResponseHours : Option ℚ
  availability : String
  reason : Option String
deriving DecidableEq, Repr

/-- The early return when no closed issues/PRs were found. -/
def respNotAvailable : RespResult :=
  { medianIssueResponseHours := none, medianPrResponseHours := none,
    availability := "not_available", reason := some "No closed issues/PRs found" }

/-- The `except Exception` return of the responsiveness helper. -/
def respError (e : Err) : RespResult :=
  { medianIssueResponseHours := none, medianPrResponseHours := none,
    availability := "error", reason := some e.str }

/-- The item loop of `_get_responsiveness`: fetch each item's comments,
find the first comment whose author association is OWNER, MEMBER or
COLLABORATOR, and record `(commented_at - created_at)` in hours into the
PR or issue partition.  The item's `created_at` parse drops its timezone
(`replace(tzinfo=None)`); the comment's parse does not. -/
def respLoop (comments : Nat → Fetch (Option (List CommentItem))) :
    List IssueItem → Nat → List ℚ → List ℚ → Except Err (List ℚ × List ℚ) × Nat
  | [], n, issueTimes, prTimes => (.ok (issueTimes, prTimes), n)
  | item :: rest, n, issueTimes, prTimes =>
    match fetchCall (comments item.number) n with
    | (.error e, n1) => (.error e, n1)
    | (.ok commentsOpt, n1) =>
      if listFalsy commentsOpt then respLoop comments rest n1 issueTimes prTimes
      else
        let createdAt := replaceTzinfoNone (parseGithubDatetime item.createdAt)
        match (commentsOpt.getD []).find?
            (fun c => ["OWNER", "MEMBER", "COLLABORATOR"].contains c.authorAssociation) with
        | none => respLoop comments rest n1 issueTimes prTimes
        | some c =>
          match dtSub (parseGithubDatetime c.createdAt) createdAt with
          | .error e => (.error e, n1)
          | .ok seconds =>
            let hours := seconds / 3600
            if item.isPullRequest then respLoop comments rest n1 issueTimes (prTimes ++ [hours])
            else respLoop comments rest n1 (issueTimes ++ [hours]) prTimes

/-- The `try` body of `_get_responsiveness`: fetch up to 30
recently-updated closed items, collect first-maintainer-response times,
then report the medians (a zero median is falsy, so it is dropped and does
not count toward availability). -/
def respBody (rf : RepoFetch) (n : Nat) : Except Err RespResult × Nat :=
  match fetchCall rf.closedIssues n with
  | (.error e, n1) => (.error e, n1)
  | (.ok issuesOpt, n1) =>
    if listFalsy issuesOpt then (.ok respNotAvailable, n1)
    else
      match respLoop rf.comments ((issuesOpt.getD []).take 30) n1 [] [] with
      | (.error e, n2) => (.error e, n2)
      | (.ok (issueTimes, prTimes), n2) =>
        let medianIssue : Option ℚ :=
          if issueTimes.isEmpty then none else some (pyMedian issueTimes)
        let medianPr : Option ℚ :=
          if prTimes.isEmpty then none else some (pyMedian prTimes)
        let available := qTruthy medianIssue || qTruthy medianPr
        (.ok { medianIssueResponseHours :=
                 if qTruthy medianIssue then medianIssue.map pyRound2 else none,
               medianPrResponseHours :=
                 if qTruthy medianPr then medianPr.map pyRound2 else none,
               availability := if available then "available" else "insufficient_data",
               reason := if available then none
                 else some "Not enough maintainer responses found" }, n2)

/-- `_get_responsiveness`: re-raise `GitHubRateLimitExceeded`, swallow any
other exception into an availability `"error"` result. -/
def getResponsiveness (rf : RepoFetch) (n : Nat) : Except Err RespResult × Nat :=
  match respBody rf n with
  | (.ok r, n1) => (.ok r, n1)
  | (.error (.rateLimitExceeded m), n1) => (.error (.rateLimitExceeded m), n1)
  | (.error e, n1) => (.ok (respError e), n1)

/-- The dictionary `_get_adoption_signals` returns. -/
structure AdoptionResult where
  dependentsCount : Option Int
  npmDownloads30d : Option Int
  forkToStarRatio : Option ℚ
  availability : String
  reason : Option String
deriving DecidableEq, Repr

/-- The `except Exception` return of the adoption helper. -/
def adoptionError (e : Err) : AdoptionResult :=
  { dependentsCount := none, npmDownloads30d := none, forkToStarRatio := none,
    availability := "error", reason := some e.str }

/-- The `try` body of `_get_adoption_signals`: dependents and npm
downloads stay `None` (the JS/TS branch also leaves `None`); the summary
fetch yields `round(forks / stars, 3)` when stars are positive and `0`
otherwise, or `None` when the summary itself is missing. -/
def adoptionBody (rf : RepoFetch) (n : Nat) : Except Err AdoptionResult × Nat :=
  let dependents : Option Int := none
  let npmDownloads : Option Int := none
  match fetchCall rf.repoSummary n with
  | (.error e, n1) => (.error e, n1)
  | (.ok rdOpt, n1) =>
    let forkToStar : Option ℚ :=
      match rdOpt with
      | some rd =>
        some (if 0 < rd.stargazersCount
          then pyRound3 ((rd.forksCount : ℚ) / (rd.stargazersCount : ℚ))
          else 0)
      | none => none
    (.ok { dependentsCount := dependents, npmDownloads30d := npmDownloads,
           forkToStarRatio := forkToStar,
           availability := if qTruthy forkToStar then "partial" else "limited",
           reason := some "Dependents and npm downloads require additional API integrations" },
     n1)

/-- `_get_adoption_signals`: the body under a bare `except Exception`
handler, so every exception — `GitHubRateLimitExceeded` included — is
swallowed into an availability `"error"` result. -/
def getAdoption (rf : RepoFetch) (n : Nat) : AdoptionResult × Nat :=
  match adoptionBody rf n with
  | (.ok r, n1) => (r, n1)
  | (.error e, n1) => (adoptionError e, n1)

/-- The dictionary `_calculate_community_risk` returns. -/
structure RiskResult where
  topContributorShare : Option ℚ
  giniCoefficient : Option ℚ
  activeMaintainersCount : Option Nat
  availability : String
deriving DecidableEq, Repr

/-- `_calculate_community_risk`: reuse the contributor-health
distribution; the Gini coefficient is never computed. -/
def calculateCommunityRisk (c : ContribResult) : RiskResult :=
  match c.distribution with
  | none =>
    { topContributorShare := none, giniCoefficient := none,
      activeMaintainersCount := none, availability := "not_available" }
  | some d =>
    { topContributorShare := some d.top1Share, giniCoefficient := none,
      activeMaintainersCount := some d.totalContributors, availability := "partial" }

/-- The per-repo metrics bundle of `analyze_repo`. -/
structure Metrics where
  contributorHealth : ContribResult
  velocity : VelocityResult
  responsiveness : RespResult
  adoption : AdoptionResult
  communityRisk : RiskResult
deriving DecidableEq, Repr

/-- `analyze_repo`: run the five signal computations in order.  Only the
velocity and responsiveness helpers let `GitHubRateLimitExceeded`
escape. -/
def analyzeRepo (rf : RepoFetch) (n : Nat) : Except Err Metrics × Nat :=
  let (contributorData, n1) := getContributors6m rf n
  match getWeeklyActivity rf n1 with
  | (.error e, n2) => (.error e, n2)
  | (.ok velocityData, n2) =>
    match getResponsiveness rf n2 with
    | (.error e, n3) => (.error e, n3)
    | (.ok responsivenessData, n3) =>
      let (adoptionData, n4) := getAdoption rf n3
      (.ok { contributorHealth := contributorData, velocity := velocityData,
             responsiveness := responsivenessData, adoption := adoptionData,
             communityRisk := calculateCommunityRisk contributorData }, n4)

/-- The stats dictionary of `DeepAnalysisService.run`. -/
structure DeepStats where
  reposProcessed : Nat
  reposSkipped : Nat
  requestsMade : Option PyVal
  rateLimitRemaining : Option PyVal
  errors : List String
deriving DecidableEq, Repr

/-- The queue loop of `run`: stop when the request budget is spent
(counting one skip) or when a repo's analysis raises
`GitHubRateLimitExceeded`; on any other per-repo exception record it and
continue.  A successfully analysed repo's queue entry is marked processed
(returned in the first component). -/
def runLoop (maxReq : Nat) (fetch : Nat → RepoFetch) :
    List Nat → Nat → DeepStats → List Nat × Nat × DeepStats
  | [], n, stats => ([], n, stats)
  | rid :: rest, n, stats =>
    if maxReq ≤ n then ([], n, { stats with reposSkipped := stats.reposSkipped + 1 })
    else
      match analyzeRepo (fetch rid) n with
      | (.ok _, n1) =>
        let (processed, n2, stats2) :=
          runLoop maxReq fetch rest n1
            { stats with reposProcessed := stats.reposProcessed + 1 }
        (rid :: processed, n2, stats2)
      | (.error (.rateLimitExceeded m), n1) =>
        ([], n1, { stats with errors := stats.errors ++ [Err.str (.rateLimitExceeded m)] })
      | (.error e, n1) =>
        runLoop maxReq fetch rest n1 { stats with errors := stats.errors ++ [e.str] }

/-- The JobRun row as deep analysis closes it. -/
structure DeepJobRun where
  jobType : String
  status : String
  errorMessage : Option String
deriving DecidableEq, Repr

/-- `DeepAnalysisService.run`: take up to `max_repos or 100` unprocessed
queue entries in priority order (the list is supplied already ordered),
drain them through `runLoop`, then read `get_stats()` — whose
`remaining_calls` subscript decides how the JobRun closes.  Returns the
closed JobRun, the repo ids marked processed, and the returned stats or
the rethrown exception. -/
def run (maxRepos : Option Nat) (maxReq : Nat) (client : GitHubClient.ClientState)
    (queue : List Nat) (fetch : Nat → RepoFetch) :
    DeepJobRun × List Nat × Except Err DeepStats :=
  let stats0 : DeepStats :=
    { reposProcessed := 0, reposSkipped := 0, requestsMade := none,
      rateLimitRemaining := none, errors := [] }
  let items := queue.take (maxRepos.getD 100)
  let (processed, nReq, stats1) := runLoop maxReq fetch items 0 stats0
  let clientFinal := { client with totalRequests := client.totalRequests + nReq }
  let clientStats := GitHubClient.getStats clientFinal
  match dictGet clientStats "total_requests" with
  | .error e =>
    ({ jobType := "deep_analysis", status := "failed", errorMessage := some e.str },
     processed, .error e)
  | .ok v =>
    let stats2 := { stats1 with requestsMade := some v }
    match dictGet clientStats "remaining_calls" with
    | .error e =>
      ({ jobType := "deep_analysis", status := "failed", errorMessage := some e.str },
       processed, .error e)
    | .ok v2 =>
      ({ jobType := "deep_analysis", status := "completed", errorMessage := none },
       processed, .ok { stats2 with rateLimitRemaining := some v2 })

end DeepAnalysisService

namespace WatchlistGenerator

/-- The Repo columns the watchlist generator reads. -/
structure WRepo where
  id : Nat
  stars : Int
  createdAt : Int
  eligible : Bool
deriving DecidableEq, Repr

/-- A discovery snapshot as the generator reads it. -/
structure WSnap where
  snapshotDate : Int
  stars : Int
deriving DecidableEq, Repr

/-- The DeepSnapshot columns the generator reads.  Field values are
arbitrary, matching rows of the snapshot table. -/
structure WDeepSnap where
  commitTrendSlope : Option ℚ
  activeMaintainersCount : Option Int
  topContributorShare : Option ℚ
  medianIssueResponseTimeHours : Option ℚ
  dependentsCount : Option Int
  npmDownloads30d : Option Int
  forkToStarRatio : Option ℚ
deriving DecidableEq, Repr

/-- `_calculate_star_velocity`: identical to the queue manager's
computation — stars per day between the two most recent discovery
snapshots, 0 otherwise. -/
def calculateStarVelocity (snapsDesc : List WSnap) : ℚ :=
  match snapsDesc with
  | recent :: older :: _ =>
    let starDiff : ℚ := (recent.stars : ℚ) - (older.stars : ℚ)
    let timeDiffDays : ℚ := ((recent.snapshotDate : ℚ) - (older.snapshotDate : ℚ)) / 86400
    if 0 < timeDiffDays then starDiff / timeDiffDays else 0
  | _ => 0

/-- `_calculate_time_to_2000`: `None` below 2000 stars; otherwise the day
delta from creation to the earliest snapshot with at least 2000 stars, or
to now when no such snapshot exists.  `snapsAsc` is the repo's discovery
history ordered oldest first, matching the ascending query. -/
def calculateTimeTo2000 (now : Int) (r : WRepo) (snapsAsc : List WSnap) : Option Int :=
  if r.stars < 2000 then none
  else
    match (snapsAsc.filter (fun s => decide (2000 ≤ s.stars))).head? with
    | some s => some (tdDays (s.snapshotDate - r.createdAt))
    | none => some (tdDays (now - r.createdAt))

/-- The score component of `_calculate_momentum_score` (the prose factor
strings are elided): star velocity up to 40, time-to-2000 up to 30 (a
`0`-day value is falsy and skipped), positive commit trend up to 30, the
sum capped at 100. -/
def calculateMomentumScore (now : Int) (r : WRepo) (snapsDesc snapsAsc : List WSnap)
    (deep : Option WDeepSnap) : ℚ :=
  let velocity := calculateStarVelocity snapsDesc
  let velocityScore : ℚ := if 0 < velocity then min (velocity * 2) 40 else 0
  let timeScore : ℚ :=
    match calculateTimeTo2000 now r snapsAsc with
    | some t => if t ≠ 0 then min (max (30 - (t : ℚ) / 12) 5) 30 else 0
    | none => 0
  let trendScore : ℚ :=
    match deep with
    | some d =>
      match d.commitTrendSlope with
      | some s => if 0 < s then min (s * 10) 30 else 0
      | none => 0
    | none => 0
  min (velocityScore + timeScore + trendScore) 100

/-- The score component of `_calculate_durability_score`: active
contributors up to 40, bus factor up to 30, responsiveness up to 30, the
sum capped at 100; each factor is skipped when its field is `None` or
zero. -/
def calculateDurabilityScore (deep : Option WDeepSnap) : ℚ :=
  match deep with
  | none => 0
  | some d =>
    let contribScore : ℚ :=
      match d.activeMaintainersCount with
      | some m => if m ≠ 0 then min ((m : ℚ) * (4/5)) 40 else 0
      | none => 0
    let busFactorScore : ℚ :=
      match d.topContributorShare with
      | some share => if share ≠ 0 then max (30 - share * 30) 0 else 0
      | none => 0
    let responseScore : ℚ :=
      match d.medianIssueResponseTimeHours with
      | some h => if h ≠ 0 then min (max (30 - h / (28/5)) 0) 30 else 0
      | none => 0
    min (contribScore + busFactorScore + responseScore) 100

/-- The score component of `_calculate_adoption_score`: log-scaled
dependents up to 50 and downloads up to 30, fork-to-star ratio up to 20,
the sum capped at 100.  `log10` abstracts `math.log10`, which has no exact
rational counterpart. -/
def calculateAdoptionScore (log10 : ℚ → ℚ) (deep : Option WDeepSnap) : ℚ :=
  match deep with
  | none => 0
  | some d =>
    let depScore : ℚ :=
      match d.dependentsCount with
      | some dc => if dc ≠ 0 then min (log10 ((dc : ℚ) + 1) * 15) 50 else 0
      | none => 0
    let dlScore : ℚ :=
      match d.npmDownloads30d with
      | some dl => if dl ≠ 0 then min (log10 ((dl : ℚ) + 1) * 8) 30 else 0
      | none => 0
    let ratioScore : ℚ :=
      match d.forkToStarRatio with
      | some ratio => if ratio ≠ 0 then min (ratio * 40) 20 else 0
      | none => 0
    min (depScore + dlScore + ratioScore) 100

/-- `_is_watchlist_eligible`: age within 24 months (of 30 days), the base
eligibility bit, then either a 2000-star crossing within the last 30 days
or an exceptional signal on the latest deep snapshot; each exceptional
test first requires the field to be truthy (non-`None` and nonzero). -/
def isWatchlistEligible (now : Int) (r : WRepo) (snapsAsc : List WSnap)
    (latestDeep : Option WDeepSnap) : Bool :=
  let ageMonths : ℚ := (tdDays (now - r.createdAt) : ℚ) / 30
  if 24 < ageMonths then false
  else if !r.eligible then false
  else
    let first2k := (snapsAsc.filter (fun s => decide (2000 ≤ s.stars))).head?
    let crossedRecently :=
      match first2k with
      | some s => decide (tdDays (now - s.snapshotDate) ≤ 30)
      | none => false
    if crossedRecently then true
    else
      match latestDeep with
      | some d =>
        (match d.commitTrendSlope with
         | some q => decide (q ≠ 0) && decide (5 < q)
         | none => false) ||
        (match d.activeMaintainersCount with
         | some m => decide (m ≠ 0) && decide (20 < m)
         | none => false) ||
        (match d.medianIssueResponseTimeHours with
         | some h => decide (h ≠ 0) && decide (h < 6)
         | none => false)
      | none => false

end WatchlistGenerator

/-! ## Queue-manager lemmas (claims C6 and C8) -/

namespace QueueManager

/-- Reading the first unprocessed entry past a matching head. -/
theorem firstUnproc_cons_pos {rid : Nat} {e : QueueEntry} (t : List QueueEntry)
    (h : isUnprocFor rid e = true) : firstUnproc (e :: t) rid = some e :=
  List.find?_cons_of_pos t h

/-- Reading the first unprocessed entry past a non-matching head. -/
theorem firstUnproc_cons_neg {rid : Nat} {e : QueueEntry} (t : List QueueEntry)
    (h : isUnprocFor rid e = false) : firstUnproc (e :: t) rid = firstUnproc t rid :=
  List.find?_cons_of_neg t (by simp [h])

/-- A row matching `isUnprocFor` is unprocessed with the right repo id. -/
theorem isUnprocFor_spec {rid : Nat} {e : QueueEntry} (h : isUnprocFor rid e = true) :
    e.repoId = rid ∧ e.processed = false := by
  have := (Bool.and_eq_true _ _).mp h
  exact ⟨of_decide_eq_true this.1, by simpa using this.2⟩

/-- Deleting old processed entries does not change any repo's unprocessed
count: the deletion predicate only accepts processed entries. -/
theorem countUnproc_filter_notClear (now : Int) (q : List QueueEntry) (rid : Nat) :
    countUnproc (q.filter (fun e => !shouldClear now e)) rid = countUnproc q rid := by
  unfold countUnproc
  rw [List.countP_filter]
  apply List.countP_congr
  intro e _
  cases hp : e.processed with
  | true => simp [isUnprocFor, hp]
  | false => simp [isUnprocFor, shouldClear, hp]

/-- `applyFirst` fails exactly when the repo has no unprocessed entry. -/
theorem applyFirst_none_iff (rid : Nat) (p : Int) (rs : String) (q : List QueueEntry) :
    applyFirst rid p rs q = none ↔ firstUnproc q rid = none := by
  induction q with
  | nil => simp [applyFirst, firstUnproc]
  | cons e t ih =>
    cases hu : isUnprocFor rid e with
    | true =>
      rw [firstUnproc_cons_pos t hu]
      simp only [applyFirst, hu, if_true]
      split_ifs <;> simp
    | false =>
      rw [firstUnproc_cons_neg t hu]
      simp only [applyFirst, hu, Bool.false_eq_true, if_false]
      rw [← ih]
      cases happ : applyFirst rid p rs t with
      | none => simp
      | some v => simp

/-- A successful `applyFirst` preserves every repo's unprocessed count:
the single mutated row keeps its repo id and processed flag. -/
theorem applyFirst_countUnproc (rid : Nat) (p : Int) (rs : String) :
    ∀ (q q2 : List QueueEntry) (b : Bool), applyFirst rid p rs q = some (q2, b) →
      ∀ rid2, countUnproc q2 rid2 = countUnproc q rid2 := by
  intro q
  induction q with
  | nil => intro q2 b h; simp [applyFirst] at h
  | cons e t ih =>
    intro q2 b h rid2
    cases hu : isUnprocFor rid e with
    | true =>
      simp only [applyFirst, hu, if_true] at h
      split_ifs at h with hp <;>
        simp only [Option.some.injEq, Prod.mk.injEq] at h <;>
        obtain ⟨rfl, rfl⟩ := h <;>
        simp [countUnproc, List.countP_cons, isUnprocFor]
    | false =>
      simp only [applyFirst, hu, Bool.false_eq_true, if_false] at h
      cases happ : applyFirst rid p rs t with
      | none => rw [happ] at h; simp at h
      | some v =>
        obtain ⟨rest2, b2⟩ := v
        rw [happ] at h
        simp only [Option.some.injEq, Prod.mk.injEq] at h
        obtain ⟨rfl, rfl⟩ := h
        simp only [countUnproc, List.countP_cons]
        have := ih rest2 b2 happ rid2
        unfold countUnproc at this
        rw [this]

/-- After a successful `applyFirst`, the repo's first unprocessed entry
carries the requested priority. -/
theorem applyFirst_firstUnproc (rid : Nat) (p : Int) (rs : String) :
    ∀ (q q2 : List QueueEntry) (b : Bool), applyFirst rid p rs q = some (q2, b) →
      ∃ e, firstUnproc q2 rid = some e ∧ e.priority = p := by
  intro q
  induction q with
  | nil => intro q2 b h; simp [applyFirst] at h
  | cons e t ih =>
    intro q2 b h
    cases hu : isUnprocFor rid e with
    | true =>
      simp only [applyFirst, hu, if_true] at h
      split_ifs at h with hp <;>
        simp only [Option.some.injEq, Prod.mk.injEq] at h <;>
        obtain ⟨rfl, rfl⟩ := h
      · exact ⟨{ e with priority := p, priorityReason := rs },
          firstUnproc_cons_pos _ hu, rfl⟩
      · exact ⟨e, firstUnproc_cons_pos _ hu, not_not.mp hp⟩
    | false =>
      simp only [applyFirst, hu, Bool.false_eq_true, if_false] at h
      cases happ : applyFirst rid p rs t with
      | none => rw [happ] at h; simp at h
      | some v =>
        obtain ⟨rest2, b2⟩ := v
        rw [happ] at h
        simp only [Option.some.injEq, Prod.mk.injEq] at h
        obtain ⟨rfl, rfl⟩ := h
        obtain ⟨e2, hfind, hprio⟩ := ih rest2 b2 happ
        exact ⟨e2, by rw [firstUnproc_cons_neg _ hu]; exact hfind, hprio⟩

/-- A successful `applyFirst` leaves other repos' first unprocessed
entries untouched. -/
theorem applyFirst_firstUnproc_other (rid : Nat) (p : Int) (rs : String) :
    ∀ (q q2 : List QueueEntry) (b : Bool), applyFirst rid p rs q = some (q2, b) →
      ∀ rid2, rid2 ≠ rid → firstUnproc q2 rid2 = firstUnproc q rid2 := by
  intro q
  induction q with
  | nil => intro q2 b h; simp [applyFirst] at h
  | cons e t ih =>
    intro q2 b h rid2 hne
    cases hu : isUnprocFor rid e with
    | true =>
      have hrepo : e.repoId = rid := (isUnprocFor_spec hu).1
      simp only [applyFirst, hu, if_true] at h
      split_ifs at h with hp <;>
        simp only [Option.some.injEq, Prod.mk.injEq] at h <;>
        obtain ⟨rfl, rfl⟩ := h
      · have hu2 : isUnprocFor rid2 e = false := by
          simp [isUnprocFor, hrepo, Ne.symm hne]
        have hu2' : isUnprocFor rid2 { e with priority := p, priorityReason := rs } =
            false := hu2
        rw [firstUnproc_cons_neg _ hu2', firstUnproc_cons_neg _ hu2]
      · rfl
    | false =>
      simp only [applyFirst, hu, Bool.false_eq_true, if_false] at h
      cases happ : applyFirst rid p rs t with
      | none => rw [happ] at h; simp at h
      | some v =>
        obtain ⟨rest2, b2⟩ := v
        rw [happ] at h
        simp only [Option.some.injEq, Prod.mk.injEq] at h
        obtain ⟨rfl, rfl⟩ := h
        have htail := ih rest2 b2 happ rid2 hne
        cases hu2 : isUnprocFor rid2 e with
        | true => rw [firstUnproc_cons_pos _ hu2, firstUnproc_cons_pos _ hu2]
        | false => rw [firstUnproc_cons_neg _ hu2, firstUnproc_cons_neg _ hu2]; exact htail

/-- When the repo's first unprocessed entry already has the requested
priority, `applyFirst` changes nothing and reports no update. -/
theorem applyFirst_of_first_eq (rid : Nat) (p : Int) (rs : String) :
    ∀ (q : List QueueEntry) (e : QueueEntry), firstUnproc q rid = some e →
      e.priority = p → applyFirst rid p rs q = some (q, false) := by
  intro q
  induction q with
  | nil => intro e h; simp [firstUnproc] at h
  | cons a t ih =>
    intro e h hp
    cases hu : isUnprocFor rid a with
    | true =>
      rw [firstUnproc_cons_pos t hu, Option.some.injEq] at h
      subst h
      simp [applyFirst, hu, hp]
    | false =>
      rw [firstUnproc_cons_neg t hu] at h
      simp only [applyFirst, hu, Bool.false_eq_true, if_false]
      rw [ih e h hp]

/-- A successful `applyFirst` preserves deletion-immunity: the mutated row
keeps its processed flag and timestamp. -/
theorem applyFirst_notClear (now : Int) (rid : Nat) (p : Int) (rs : String) :
    ∀ (q q2 : List QueueEntry) (b : Bool), applyFirst rid p rs q = some (q2, b) →
      (∀ e ∈ q, shouldClear now e = false) → ∀ e ∈ q2, shouldClear now e = false := by
  intro q
  induction q with
  | nil => intro q2 b h; simp [applyFirst] at h
  | cons a t ih =>
    intro q2 b h hq e he
    cases hu : isUnprocFor rid a with
    | true =>
      simp only [applyFirst, hu, if_true] at h
      split_ifs at h with hp <;>
        simp only [Option.some.injEq, Prod.mk.injEq] at h <;>
        obtain ⟨rfl, rfl⟩ := h <;>
        rcases List.mem_cons.mp he with rfl | hmem
      · have := hq a (List.mem_cons_self _ _)
        simpa [shouldClear] using this
      · exact hq e (List.mem_cons_of_mem _ hmem)
      · exact hq e (List.mem_cons_self _ _)
      · exact hq e (List.mem_cons_of_mem _ hmem)
    | false =>
      simp only [applyFirst, hu, Bool.false_eq_true, if_false] at h
      cases happ : applyFirst rid p rs t with
      | none => rw [happ] at h; simp at h
      | some v =>
        obtain ⟨rest2, b2⟩ := v
        rw [happ] at h
        simp only [Option.some.injEq, Prod.mk.injEq] at h
        obtain ⟨rfl, rfl⟩ := h
        rcases List.mem_cons.mp he with rfl | hmem
        · exact hq e (List.mem_cons_self _ _)
        · exact ih rest2 b2 happ (fun x hx => hq x (List.mem_cons_of_mem _ hx)) e hmem

/-- A repo with a first unprocessed entry has positive unprocessed count. -/
theorem countUnproc_pos_of_firstUnproc {q : List QueueEntry} {rid : Nat} {e : QueueEntry}
    (h : firstUnproc q rid = some e) : 0 < countUnproc q rid := by
  unfold firstUnproc at h
  unfold countUnproc
  exact List.countP_pos_iff.mpr ⟨e, List.mem_of_find?_eq_some h, List.find?_some h⟩

/-- A repo with no first unprocessed entry has unprocessed count 0. -/
theorem countUnproc_eq_zero_of_first_none {q : List QueueEntry} {rid : Nat}
    (h : firstUnproc q rid = none) : countUnproc q rid = 0 :=
  List.countP_eq_zero.mpr (List.find?_eq_none.mp h)

/-- Appending one entry adds to exactly the matching repo's count. -/
theorem countUnproc_append_single (q : List QueueEntry) (x : QueueEntry) (rid : Nat) :
    countUnproc (q ++ [x]) rid =
      countUnproc q rid + (if isUnprocFor rid x then 1 else 0) := by
  simp [countUnproc, List.countP_append, List.countP_cons]

/-- One refresh-loop iteration keeps all unprocessed counts at most 1,
leaves every count that was 1 at 1, and leaves the stepped repo with
exactly one unprocessed entry. -/
theorem refreshStep_counts (now : Int) (db : QMDB) (r : QRepo) (q : List QueueEntry)
    (s : RefreshStats) (hle : ∀ rid, countUnproc q rid ≤ 1) :
    (∀ rid, countUnproc (refreshStep now db (q, s) r).1 rid ≤ 1) ∧
    countUnproc (refreshStep now db (q, s) r).1 r.id = 1 ∧
    (∀ rid, countUnproc q rid = 1 → countUnproc (refreshStep now db (q, s) r).1 rid = 1) := by
  unfold refreshStep
  rcases hpr : calcPriority now db r with ⟨p, rs⟩
  dsimp only
  cases happ : applyFirst r.id p rs q with
  | some v =>
    obtain ⟨q2, b⟩ := v
    dsimp only
    have hcounts := applyFirst_countUnproc r.id p rs q q2 b happ
    have hpos : 0 < countUnproc q r.id := by
      rcases hfind : firstUnproc q r.id with _ | e
      · exact absurd ((applyFirst_none_iff r.id p rs q).mpr hfind) (by simp [happ])
      · exact countUnproc_pos_of_firstUnproc hfind
    refine ⟨fun rid => (hcounts rid) ▸ hle rid, ?_, fun rid h1 => (hcounts rid) ▸ h1⟩
    rw [hcounts r.id]
    have := hle r.id
    omega
  | none =>
    dsimp only
    have h0 : countUnproc q r.id = 0 :=
      countUnproc_eq_zero_of_first_none ((applyFirst_none_iff r.id p rs q).mp happ)
    have hnew : ∀ rid, (if isUnprocFor rid
        ({ repoId := r.id, priority := p, priorityReason := rs, queuedAt := now,
           processed := false, processedAt := none } : QueueEntry) then 1 else 0) =
        if rid = r.id then 1 else 0 := by
      intro rid
      by_cases hr : rid = r.id <;> simp [isUnprocFor, hr]
      exact fun h => absurd h.symm hr
    refine ⟨?_, ?_, ?_⟩
    · intro rid
      rw [countUnproc_append_single, hnew rid]
      by_cases hr : rid = r.id
      · subst hr; rw [if_pos rfl]; omega
      · rw [if_neg hr]; have := hle rid; omega
    · rw [countUnproc_append_single, hnew r.id, h0]
      simp
    · intro rid h1
      have hr : rid ≠ r.id := by
        intro hcontra; subst hcontra; omega
      rw [countUnproc_append_single, hnew rid, if_neg hr, h1]

/-- The refresh loop keeps all unprocessed counts at most 1, leaves counts
that were 1 unchanged, and gives every walked repo exactly one unprocessed
entry. -/
theorem foldRefresh_counts (now : Int) (db : QMDB) :
    ∀ (repos : List QRepo) (q : List QueueEntry) (s : RefreshStats),
    (∀ rid, countUnproc q rid ≤ 1) →
    (∀ rid, countUnproc ((repos.foldl (refreshStep now db) (q, s)).1) rid ≤ 1) ∧
    (∀ r ∈ repos, countUnproc ((repos.foldl (refreshStep now db) (q, s)).1) r.id = 1) ∧
    (∀ rid, countUnproc q rid = 1 →
      countUnproc ((repos.foldl (refreshStep now db) (q, s)).1) rid = 1) := by
  intro repos
  induction repos with
  | nil =>
    intro q s hle
    exact ⟨hle, fun r hr => absurd hr (List.not_mem_nil r), fun rid h => h⟩
  | cons r rest ih =>
    intro q s hle
    obtain ⟨hle1, hr1, hpres1⟩ := refreshStep_counts now db r q s hle
    rcases hstep : refreshStep now db (q, s) r with ⟨q1, s1⟩
    rw [hstep] at hle1 hr1 hpres1
    simp only [List.foldl_cons, hstep]
    obtain ⟨hle2, hmem2, hpres2⟩ := ih q1 s1 hle1
    refine ⟨hle2, ?_, fun rid h1 => hpres2 rid (hpres1 rid h1)⟩
    intro r' hr'
    rcases List.mem_cons.mp hr' with rfl | hmem
    · exact hpres2 r'.id hr1
    · exact hmem2 r' hmem

/-- Every entry of a one-iteration result survives the deletion predicate,
provided every entry of the input does: updates keep the processed flag
and timestamp, inserts are unprocessed. -/
theorem refreshStep_notClear (now : Int) (db : QMDB) (r : QRepo) (q : List QueueEntry)
    (s : RefreshStats) (hq : ∀ e ∈ q, shouldClear now e = false) :
    ∀ e ∈ (refreshStep now db (q, s) r).1, shouldClear now e = false := by
  unfold refreshStep
  rcases hpr : calcPriority now db r with ⟨p, rs⟩
  dsimp only
  cases happ : applyFirst r.id p rs q with
  | some v =>
    obtain ⟨q2, b⟩ := v
    dsimp only
    exact applyFirst_notClear now r.id p rs q q2 b happ hq
  | none =>
    dsimp only
    intro e he
    rcases List.mem_append.mp he with hmem | hmem
    · exact hq e hmem
    · rcases List.mem_singleton.mp hmem with rfl
      rfl

/-- Deletion-immunity is preserved across the whole refresh loop. -/
theorem foldRefresh_notClear (now : Int) (db : QMDB) :
    ∀ (repos : List QRepo) (q : List QueueEntry) (s : RefreshStats),
    (∀ e ∈ q, shouldClear now e = false) →
    ∀ e ∈ ((repos.foldl (refreshStep now db) (q, s)).1), shouldClear now e = false := by
  intro repos
  induction repos with
  | nil => intro q s hq; exact hq
  | cons r rest ih =>
    intro q s hq
    rcases hstep : refreshStep now db (q, s) r with ⟨q1, s1⟩
    have h1 : ∀ e ∈ q1, shouldClear now e = false := by
      have := refreshStep_notClear now db r q s hq
      rw [hstep] at this
      exact this
    simp only [List.foldl_cons, hstep]
    exact ih q1 s1 h1

/-- One iteration leaves the first unprocessed entry of every other repo
untouched. -/
theorem refreshStep_first_other (now : Int) (db : QMDB) (r : QRepo) (q : List QueueEntry)
    (s : RefreshStats) (rid : Nat) (hne : rid ≠ r.id) :
    firstUnproc (refreshStep now db (q, s) r).1 rid = firstUnproc q rid := by
  unfold refreshStep
  rcases hpr : calcPriority now db r with ⟨p, rs⟩
  dsimp only
  cases happ : applyFirst r.id p rs q with
  | some v =>
    obtain ⟨q2, b⟩ := v
    dsimp only
    exact applyFirst_firstUnproc_other r.id p rs q q2 b happ rid hne
  | none =>
    dsimp only
    unfold firstUnproc
    rw [List.find?_append]
    have hxfalse : isUnprocFor rid
        ({ repoId := r.id, priority := p, priorityReason := rs, queuedAt := now,
           processed := false, processedAt := none } : QueueEntry) = false := by
      simp only [isUnprocFor, Bool.not_false, Bool.and_true, decide_eq_false_iff_not]
      omega
    have hnew : (List.find? (isUnprocFor rid)
        [{ repoId := r.id, priority := p, priorityReason := rs, queuedAt := now,
           processed := false, processedAt := none }]) = none := by
      rw [List.find?_cons_of_neg _ (by simp [hxfalse])]
      rfl
    rw [hnew]
    cases List.find? (isUnprocFor rid) q <;> rfl

/-- A loop over repos that never mentions `rid` leaves `rid`'s first
unprocessed entry untouched. -/
theorem foldRefresh_first_other (now : Int) (db : QMDB) :
    ∀ (repos : List QRepo) (q : List QueueEntry) (s : RefreshStats) (rid : Nat),
    (∀ r ∈ repos, r.id ≠ rid) →
    firstUnproc ((repos.foldl (refreshStep now db) (q, s)).1) rid = firstUnproc q rid := by
  intro repos
  induction repos with
  | nil => intro q s rid _; rfl
  | cons r rest ih =>
    intro q s rid hne
    rcases hstep : refreshStep now db (q, s) r with ⟨q1, s1⟩
    have h1 : firstUnproc q1 rid = firstUnproc q rid := by
      have := refreshStep_first_other now db r q s rid
        (Ne.symm (hne r (List.mem_cons_self _ _)))
      rw [hstep] at this
      exact this
    simp only [List.foldl_cons, hstep]
    rw [ih q1 s1 rid (fun r' hr' => hne r' (List.mem_cons_of_mem _ hr')), h1]

/-- After its own iteration, a repo's first unprocessed entry carries its
computed priority. -/
theorem refreshStep_establishes (now : Int) (db : QMDB) (r : QRepo) (q : List QueueEntry)
    (s : RefreshStats) :
    ∃ e, firstUnproc (refreshStep now db (q, s) r).1 r.id = some e ∧
      e.priority = (calcPriority now db r).1 := by
  unfold refreshStep
  rcases hpr : calcPriority now db r with ⟨p, rs⟩
  dsimp only
  cases happ : applyFirst r.id p rs q with
  | some v =>
    obtain ⟨q2, b⟩ := v
    dsimp only
    exact applyFirst_firstUnproc r.id p rs q q2 b happ
  | none =>
    dsimp only
    have hfirst : firstUnproc q r.id = none := (applyFirst_none_iff r.id p rs q).mp happ
    refine ⟨{ repoId := r.id, priority := p, priorityReason := rs, queuedAt := now,
              processed := false, processedAt := none }, ?_, rfl⟩
    unfold firstUnproc at hfirst ⊢
    rw [List.find?_append, hfirst]
    simp [isUnprocFor]

/-- After the refresh loop, every walked repo's first unprocessed entry
carries its computed priority (repo ids must be pairwise distinct, as the
primary key guarantees). -/
theorem foldRefresh_establishes (now : Int) (db : QMDB) :
    ∀ (repos : List QRepo) (q : List QueueEntry) (s : RefreshStats),
    List.Pairwise (fun a b => a.id ≠ b.id) repos →
    ∀ r ∈ repos, ∃ e,
      firstUnproc ((repos.foldl (refreshStep now db) (q, s)).1) r.id = some e ∧
      e.priority = (calcPriority now db r).1 := by
  intro repos
  induction repos with
  | nil => intro q s _ r hr; exact absurd hr (List.not_mem_nil r)
  | cons r rest ih =>
    intro q s hpw r' hr'
    have hhead : ∀ b ∈ rest, r.id ≠ b.id := (List.pairwise_cons.mp hpw).1
    have htail : List.Pairwise (fun a b => a.id ≠ b.id) rest :=
      (List.pairwise_cons.mp hpw).2
    rcases hstep : refreshStep now db (q, s) r with ⟨q1, s1⟩
    simp only [List.foldl_cons, hstep]
    rcases List.mem_cons.mp hr' with rfl | hmem
    · obtain ⟨e, hfind, hprio⟩ := refreshStep_establishes now db r' q s
      rw [hstep] at hfind
      refine ⟨e, ?_, hprio⟩
      rw [foldRefresh_first_other now db rest q1 s1 r'.id
        (fun b hb => Ne.symm (hhead b hb)), hfind]
    · exact ih q1 s1 htail r' hmem

/-- When every walked repo's first unprocessed entry already carries its
computed priority, the refresh loop is the identity on the accumulator. -/
theorem foldRefresh_id (now : Int) (db : QMDB) :
    ∀ (repos : List QRepo) (q : List QueueEntry) (s : RefreshStats),
    (∀ r ∈ repos, ∃ e, firstUnproc q r.id = some e ∧
      e.priority = (calcPriority now db r).1) →
    repos.foldl (refreshStep now db) (q, s) = (q, s) := by
  intro repos
  induction repos with
  | nil => intro q s _; rfl
  | cons r rest ih =>
    intro q s h
    obtain ⟨e, hfind, hprio⟩ := h r (List.mem_cons_self _ _)
    have hstep : refreshStep now db (q, s) r = (q, s) := by
      unfold refreshStep
      rcases hpr : calcPriority now db r with ⟨p, rs⟩
      dsimp only
      rw [hpr] at hprio
      rw [applyFirst_of_first_eq r.id p rs q e hfind hprio]
      rfl
    simp only [List.foldl_cons, hstep]
    exact ih q s (fun r' hr' => h r' (List.mem_cons_of_mem _ hr'))

end QueueManager

/-! ## Claim C7 — the rate-limit pre-call guard -/

/-- A client state whose tracked core-class remaining count is 499. -/
def c7CoreState : GitHubClient.ClientState :=
  { coreRemaining := some 499, coreReset := some 1700000000,
    searchRemaining := some 0, searchReset := none, totalRequests := 7 }

/-- A client state with an exhausted tracked search quota. -/
def c7SearchState : GitHubClient.ClientState :=
  { coreRemaining := some 5000, coreReset := none,
    searchRemaining := some 0, searchReset := none, totalRequests := 7 }

/-- C7: with core remaining 499 and safety floor 500, the next `get()` on a
non-search endpoint raises `GitHubRateLimitExceeded` before issuing any
HTTP request; and on any endpoint under `search/`, the pre-call guard
never raises, whatever the tracked search-remaining value is — it only
warns. -/
theorem c7_rate_limit_guard :
    (∀ (st : GitHubClient.ClientState) (endpoint : String)
       (responses : List GitHubClient.HttpResponse),
       st.coreRemaining = some 499 → pyStartsWith endpoint "search/" = false →
       (GitHubClient.get 500 st endpoint responses).requestsIssued = 0 ∧
       (GitHubClient.get 500 st endpoint responses).result =
         .error (.rateLimitExceeded "Core API rate limit safety threshold reached")) ∧
    (∀ (st : GitHubClient.ClientState) (endpoint : String),
       pyStartsWith endpoint "search/" = true →
       GitHubClient.checkRateLimit 500 st endpoint = .ok ()) := by
  constructor
  · intro st endpoint responses hcore hsearch
    have hcheck : GitHubClient.checkRateLimit 500 st endpoint =
        .error (.rateLimitExceeded "Core API rate limit safety threshold reached") := by
      unfold GitHubClient.checkRateLimit
      rw [hsearch, hcore]
      norm_num
    unfold GitHubClient.get
    rw [hcheck]
    exact ⟨rfl, rfl⟩
  · intro st endpoint hsearch
    unfold GitHubClient.checkRateLimit
    rw [hsearch]
    rfl

/-- Witness for C7 at concrete states and endpoints. -/
theorem c7_rate_limit_guard_witness :
    ((GitHubClient.get 500 c7CoreState "repos/acme/widgets" []).requestsIssued = 0 ∧
     (GitHubClient.get 500 c7CoreState "repos/acme/widgets" []).result =
       .error (.rateLimitExceeded "Core API rate limit safety threshold reached")) ∧
    GitHubClient.checkRateLimit 500 c7SearchState "search/issues" = .ok () :=
  ⟨c7_rate_limit_guard.1 c7CoreState "repos/acme/widgets" [] rfl (by decide),
   c7_rate_limit_guard.2 c7SearchState "search/issues" (by decide)⟩

/-! ## Claim C1 — how DiscoveryService.run closes its JobRun -/

/-- C1 (against the code): in every discovery run in which search
pagination and all per-repo work raise nothing, the final stats-reporting
step subscripts `get_stats()` with the key `remaining_calls`, which
`get_stats` does not return, so the run always raises `KeyError`, closes
the JobRun `failed`, and rethrows — it never closes `completed`. -/
theorem discovery_run_always_fails (cfg : DiscoveryService.DiscSettings) (now : Int)
    (knownIds : List Nat) (client : GitHubClient.ClientState)
    (reposData : List DiscoveryService.RepoData) :
    (DiscoveryService.run cfg now knownIds client reposData).1.status = "failed" ∧
    (DiscoveryService.run cfg now knownIds client reposData).2 =
      .error (.keyError "remaining_calls") :=
  ⟨rfl, rfl⟩

/-! ## Claim C2 — responsiveness response-time recording -/

/-- A repo whose closed-items fetch returns a single closed issue created
at epoch second 0, with one comment by an OWNER two hours later. -/
def c2Fetch : DeepAnalysisService.RepoFetch :=
  { commitActivityContrib := .ok none, contributorStats := .ok none,
    commitActivityVelocity := .ok none,
    weeklySearch := fun _ => (.ok (some 0), .ok (some 0)),
    closedIssues := .ok (some [{ number := 1, createdAt := 0, isPullRequest := false }]),
    comments := fun _ => .ok (some [{ authorAssociation := "OWNER", createdAt := 7200 }]),
    repoSummary := .ok none, language := none }

/-- C2 (against the code): for an issue with a maintainer comment two
hours after creation, `_get_responsiveness` records nothing: the item's
`created_at` is parsed and stripped to a naive datetime while the
comment's `created_at` keeps its timezone, so the subtraction raises
`TypeError`, the bare handler swallows it, and the helper returns
availability `"error"` with both medians `None` instead of a 2-hour
response time. -/
theorem responsiveness_timezone_bug :
    (DeepAnalysisService.getResponsiveness c2Fetch 0).1 =
      .ok { medianIssueResponseHours := none, medianPrResponseHours := none,
            availability := "error",
            reason := some "cannot subtract offset-naive and offset-aware datetimes" } :=
  rfl

/-! ## Claim C3 — RateLimitExceeded during a repo's deep analysis -/

/-- A repo all of whose fetches answer benignly (empty statistics). -/
def c3GoodFetch : DeepAnalysisService.RepoFetch :=
  { commitActivityContrib := .ok none, contributorStats := .ok none,
    commitActivityVelocity := .ok none,
    weeklySearch := fun _ => (.ok (some 0), .ok (some 0)),
    closedIssues := .ok none, comments := fun _ => .ok none,
    repoSummary := .ok none, language := none }

/-- The same repo except that the commit-activity fetch of the
contributor-health helper raises `GitHubRateLimitExceeded`. -/
def c3BadFetch : DeepAnalysisService.RepoFetch :=
  { c3GoodFetch with commitActivityContrib := .rateLimited }

/-- The oracle of a two-repo run: repo 1 hits the rate limit in its
contributor-health fetch, repo 2 is benign. -/
def c3Fetcher : Nat → DeepAnalysisService.RepoFetch :=
  fun rid => if rid = 1 then c3BadFetch else c3GoodFetch

/-- A fresh client. -/
def c3Client : GitHubClient.ClientState :=
  { coreRemaining := none, coreReset := none, searchRemaining := none,
    searchReset := none, totalRequests := 0 }

/-- C3 (against the code): when `GitHubRateLimitExceeded` is raised inside
`_get_contributors_last_6_months`, its bare `except Exception` handler
swallows it into an availability-`"error"` contributor result, so the run
does NOT stop: repo 1 is fully analysed and marked processed and the run
continues to repo 2 — contradicting the claim that the entire run stops
with that repo left unprocessed. -/
theorem deep_run_swallows_rate_limit :
    (DeepAnalysisService.run (some 100) 5000 c3Client [1, 2] c3Fetcher).2.1 = [1, 2] ∧
    (DeepAnalysisService.getContributors6m c3BadFetch 0).1 =
      DeepAnalysisService.contribError (.rateLimitExceeded "Primary rate limit exceeded") :=
  ⟨rfl, rfl⟩

/-! ## Claim C5 — the 4-week grouping of the last 26 weekly buckets -/

namespace DeepAnalysisService

/-- The grouping loop emits one entry per started 4-week slice:
`ceil(length / 4)` entries. -/
theorem monthlyActive_length (ws : List Week) :
    (monthlyActive ws).length = (ws.length + 3) / 4 := by
  have H : ∀ (n : Nat) (ws : List Week), ws.length ≤ n →
      (monthlyActive ws).length = (ws.length + 3) / 4 := by
    intro n
    induction n with
    | zero =>
      intro ws h
      have hnil : ws = [] := List.length_eq_zero.mp (Nat.le_zero.mp h)
      subst hnil
      simp [monthlyActive]
    | succ n ih =>
      intro ws h
      rcases ws with _ | ⟨a, _ | ⟨b, _ | ⟨c, _ | ⟨d, rest⟩⟩⟩⟩
      · simp [monthlyActive]
      · simp [monthlyActive]
      · simp [monthlyActive]
      · simp [monthlyActive]
      · have hstep : monthlyActive (a :: b :: c :: d :: rest) =
            (if 0 < a.total + b.total + c.total + d.total
             then a.total + b.total + c.total + d.total else 0) :: monthlyActive rest := rfl
        rw [hstep]
        simp only [List.length_cons]
        rw [ih rest (by simp only [List.length_cons] at h; omega)]
        omega
  exact H ws.length ws le_rfl

end DeepAnalysisService

/-- 26 weekly buckets of one commit each. -/
def c5Weeks : List DeepAnalysisService.Week := List.replicate 26 { total := 1 }

/-- A repo whose commit activity has exactly 26 weekly buckets and whose
contributor stats are non-empty. -/
def c5Fetch : DeepAnalysisService.RepoFetch :=
  { commitActivityContrib := .ok (some c5Weeks),
    contributorStats := .ok (some [{ total := 5 }]),
    commitActivityVelocity := .ok none,
    weeklySearch := fun _ => (.ok (some 0), .ok (some 0)),
    closedIssues := .ok none, comments := fun _ => .ok none,
    repoSummary := .ok none, language := none }

/-- C5 counterexample: on commit-activity data of exactly 26 weekly
buckets, the monthly-active sequence does NOT have 6 entries — the
stride-4 grouping of 26 weeks yields 7 slices (six of 4 weeks and a
trailing one of 2). -/
theorem contributors_window_counterexample :
    ((DeepAnalysisService.getContributors6m c5Fetch 0).1.monthlyContributors.map
      List.length) ≠ some 6 := by
  have h : ((DeepAnalysisService.getContributors6m c5Fetch 0).1.monthlyContributors.map
      List.length) = some 7 := by decide
  rw [h]
  decide

/-- C5 amended: for commit-activity data with at least 26 weekly buckets
and non-empty contributor stats, the helper takes the last 26 buckets and
groups them by stride 4 into 7 consecutive windows — six 4-week windows
and a final 2-week window — so the monthly-active sequence has exactly 7
entries, not 6. -/
theorem contributors_window_amended (rf : DeepAnalysisService.RepoFetch)
    (data : List DeepAnalysisService.Week)
    (contribs : List DeepAnalysisService.Contributor) (n : Nat)
    (hca : rf.commitActivityContrib = .ok (some data))
    (hlen : 26 ≤ data.length)
    (hcs : rf.contributorStats = .ok (some contribs))
    (hne : contribs ≠ []) :
    ((DeepAnalysisService.getContributors6m rf n).1.monthlyContributors.map
      List.length) = some 7 := by
  have hdataNe : data.isEmpty = false := by
    cases data with
    | nil => simp at hlen
    | cons a t => simp
  have hcontribsNe : contribs.isEmpty = false := by
    cases contribs with
    | nil => exact absurd rfl hne
    | cons a t => simp
  unfold DeepAnalysisService.getContributors6m DeepAnalysisService.contribBody
  rw [hca, hcs]
  simp only [DeepAnalysisService.fetchCall, listFalsy, hdataNe, hcontribsNe,
    Bool.false_eq_true, if_false, Option.getD_some]
  rw [if_pos hlen]
  simp only [Option.map_some', DeepAnalysisService.monthlyActive_length, List.length_drop,
    Option.some.injEq]
  omega

/-- Witness for the amended C5 at the concrete 26-bucket input. -/
theorem contributors_window_amended_witness :
    ((DeepAnalysisService.getContributors6m c5Fetch 0).1.monthlyContributors.map
      List.length) = some 7 :=
  contributors_window_amended c5Fetch c5Weeks [{ total := 5 }] 0 rfl (by decide) rfl
    (by decide)

/-! ## Claim C9 — the fork-to-star ratio -/

/-- A repo summary with 0 stars and 5 forks. -/
def c9FetchZeroStars : DeepAnalysisService.RepoFetch :=
  { commitActivityContrib := .ok none, contributorStats := .ok none,
    commitActivityVelocity := .ok none,
    weeklySearch := fun _ => (.ok (some 0), .ok (some 0)),
    closedIssues := .ok none, comments := fun _ => .ok none,
    repoSummary := .ok (some { stargazersCount := 0, forksCount := 5 }), language := none }

/-- A repo summary with 4 stars and 1 fork. -/
def c9FetchFourStars : DeepAnalysisService.RepoFetch :=
  { c9FetchZeroStars with
    repoSummary := .ok (some { stargazersCount := 4, forksCount := 1 }) }

/-- C9 counterexample: for a repo with stars = 0 and forks = 5 the claim
says the recorded ratio is `5 / max(0, 1) = 5`, but the code records 0 —
`_get_adoption_signals` computes `forks / stars` only when stars are
positive and otherwise hard-codes 0. -/
theorem fork_star_ratio_counterexample :
    (DeepAnalysisService.getAdoption c9FetchZeroStars 0).1.forkToStarRatio ≠
      some ((5 : ℚ) / max (0 : ℚ) 1) := by
  have h : (DeepAnalysisService.getAdoption c9FetchZeroStars 0).1.forkToStarRatio =
      some 0 := rfl
  rw [h]
  intro hcontra
  have := Option.some.inj hcontra
  norm_num at this

/-- C9 amended: when the summary fetch succeeds, the recorded
fork-to-star ratio is `round(forks / max(stars, 1), 3)` for positive
stars, and 0 — not `forks` — when stars = 0 (or negative). -/
theorem fork_star_ratio_amended (stars forks : Int)
    (rf : DeepAnalysisService.RepoFetch) (n : Nat)
    (h : rf.repoSummary = .ok (some { stargazersCount := stars, forksCount := forks })) :
    (DeepAnalysisService.getAdoption rf n).1.forkToStarRatio =
      some (if 0 < stars then pyRound3 ((forks : ℚ) / max (stars : ℚ) 1) else 0) := by
  unfold DeepAnalysisService.getAdoption DeepAnalysisService.adoptionBody
  rw [h]
  simp only [DeepAnalysisService.fetchCall]
  by_cases hs : 0 < stars
  · have hmax : max (stars : ℚ) 1 = (stars : ℚ) := by
      have h1 : (1 : ℚ) ≤ (stars : ℚ) := by exact_mod_cast hs
      exact max_eq_left h1
    simp [hs, hmax]
  · simp [hs]

/-- Witness for the amended C9 at stars = 4, forks = 1. -/
theorem fork_star_ratio_amended_witness :
    (DeepAnalysisService.getAdoption c9FetchFourStars 0).1.forkToStarRatio =
      some (if 0 < (4 : Int) then pyRound3 ((1 : ℚ) / max (4 : ℚ) 1) else 0) :=
  fork_star_ratio_amended 4 1 c9FetchFourStars 0 rfl

/-! ## Claim C10 — a zero median is treated as an absent signal -/

/-- C10: for a currently-eligible repo within the 24-month window whose
2000-star crossing (if any) is older than 30 days, whose latest deep
snapshot passes neither the trend-slope nor the maintainer-count test, and
whose `median_issue_response_time_hours` is exactly 0 — an instant median,
well under the 6-hour threshold — the candidate is NOT admitted: each
exceptional-signal test requires the field to be truthy, and `0.0` is
falsy. -/
theorem zero_median_not_admitted (now : Int) (r : WatchlistGenerator.WRepo)
    (snapsAsc : List WatchlistGenerator.WSnap) (d : WatchlistGenerator.WDeepSnap)
    (hage : (tdDays (now - r.createdAt) : ℚ) / 30 ≤ 24)
    (helig : r.eligible = true)
    (h2k : ∀ s, (snapsAsc.filter (fun s => decide (2000 ≤ s.stars))).head? = some s →
      30 < tdDays (now - s.snapshotDate))
    (hslope : (match d.commitTrendSlope with
               | some q => decide (q ≠ 0) && decide (5 < q)
               | none => false) = false)
    (hmaint : (match d.activeMaintainersCount with
               | some m => decide (m ≠ 0) && decide (20 < m)
               | none => false) = false)
    (hmedian : d.medianIssueResponseTimeHours = some 0) :
    WatchlistGenerator.isWatchlistEligible now r snapsAsc (some d) = false := by
  unfold WatchlistGenerator.isWatchlistEligible
  rw [if_neg (not_lt.mpr hage), helig]
  simp only [Bool.not_true, Bool.false_eq_true, if_false]
  have hcross : (match (snapsAsc.filter (fun s => decide (2000 ≤ s.stars))).head? with
      | some s => decide (tdDays (now - s.snapshotDate) ≤ 30)
      | none => false) = false := by
    cases hhead : (snapsAsc.filter (fun s => decide (2000 ≤ s.stars))).head? with
    | none => rfl
    | some s =>
      have := h2k s hhead
      simp only [decide_eq_false_iff_not, not_le]
      exact this
  rw [hcross]
  simp only [Bool.false_eq_true, if_false]
  rw [hslope, hmaint, hmedian]
  simp

/-- A 24-month-old eligible repo with no discovery snapshots. -/
def c10Repo : WatchlistGenerator.WRepo :=
  { id := 1, stars := 2500, createdAt := 0, eligible := true }

/-- A latest deep snapshot whose only populated signal is a zero median
issue response time. -/
def c10Snap : WatchlistGenerator.WDeepSnap :=
  { commitTrendSlope := none, activeMaintainersCount := none,
    topContributorShare := none, medianIssueResponseTimeHours := some 0,
    dependentsCount := none, npmDownloads30d := none, forkToStarRatio := none }

/-- Witness for C10 at the concrete repo and snapshot. -/
theorem zero_median_not_admitted_witness :
    WatchlistGenerator.isWatchlistEligible 0 c10Repo [] (some c10Snap) = false :=
  zero_median_not_admitted 0 c10Repo [] c10Snap (by norm_num [tdDays, c10Repo])
    rfl (fun s h => by simp at h) rfl rfl rfl

/-! ## Claim C4 — the watchlist scores and the interval [0, 100] -/

/-- A deep-snapshot row whose active-maintainers column holds −100. -/
def c4NegSnap : WatchlistGenerator.WDeepSnap :=
  { commitTrendSlope := none, activeMaintainersCount := some (-100),
    topContributorShare := none, medianIssueResponseTimeHours := none,
    dependentsCount := none, npmDownloads30d := none, forkToStarRatio := none }

/-- C4 counterexample: for a fully arbitrary snapshot the claim fails —
a stored maintainer count of −100 drives the durability score to −80,
because the code caps each score above at 100 but never clamps below 0. -/
theorem score_range_counterexample :
    WatchlistGenerator.calculateDurabilityScore (some c4NegSnap) < 0 := by
  norm_num [WatchlistGenerator.calculateDurabilityScore, c4NegSnap]

/-- C4 amended: the three scores lie in [0, 100] provided the snapshot's
count-valued columns (active maintainers, dependents, downloads) and its
fork-to-star ratio are non-negative when present — which holds for every
snapshot the deep-analysis pipeline writes; for fully arbitrary column
values the durability and adoption scores can drop below 0.  `log10` is
`math.log10`, assumed non-negative on arguments at least 1. -/
theorem score_range_amended (log10 : ℚ → ℚ)
    (hlog : ∀ x : ℚ, 1 ≤ x → 0 ≤ log10 x)
    (now : Int) (r : WatchlistGenerator.WRepo)
    (snapsDesc snapsAsc : List WatchlistGenerator.WSnap)
    (deep : Option WatchlistGenerator.WDeepSnap)
    (hmaint : ∀ d m, deep = some d → d.activeMaintainersCount = some m → 0 ≤ m)
    (hdeps : ∀ d x, deep = some d → d.dependentsCount = some x → 0 ≤ x)
    (hdl : ∀ d x, deep = some d → d.npmDownloads30d = some x → 0 ≤ x)
    (hratio : ∀ d q, deep = some d → d.forkToStarRatio = some q → 0 ≤ q) :
    (0 ≤ WatchlistGenerator.calculateMomentumScore now r snapsDesc snapsAsc deep ∧
     WatchlistGenerator.calculateMomentumScore now r snapsDesc snapsAsc deep ≤ 100) ∧
    (0 ≤ WatchlistGenerator.calculateDurabilityScore deep ∧
     WatchlistGenerator.calculateDurabilityScore deep ≤ 100) ∧
    (0 ≤ WatchlistGenerator.calculateAdoptionScore log10 deep ∧
     WatchlistGenerator.calculateAdoptionScore log10 deep ≤ 100) := by
  refine ⟨⟨?_, ?_⟩, ⟨?_, ?_⟩, ⟨?_, ?_⟩⟩
  · -- momentum is non-negative: every contribution is
    unfold WatchlistGenerator.calculateMomentumScore
    refine le_min (add_nonneg (add_nonneg ?_ ?_) ?_) (by norm_num)
    · split_ifs with h
      · exact le_min (by linarith) (by norm_num)
      · exact le_refl 0
    · rcases WatchlistGenerator.calculateTimeTo2000 now r snapsAsc with _ | t
      · exact le_refl 0
      · dsimp only
        split_ifs with h
        · exact le_min (le_trans (by norm_num) (le_max_right _ _)) (by norm_num)
        · exact le_refl 0
    · rcases deep with _ | d
      · exact le_refl 0
      · dsimp only
        rcases d.commitTrendSlope with _ | s
        · exact le_refl 0
        · dsimp only
          split_ifs with h
          · exact le_min (by linarith) (by norm_num)
          · exact le_refl 0
  · -- momentum is capped at 100
    unfold WatchlistGenerator.calculateMomentumScore
    exact min_le_right _ _
  · -- durability is non-negative given a non-negative maintainer count
    rcases deep with _ | d
    · norm_num [WatchlistGenerator.calculateDurabilityScore]
    · unfold WatchlistGenerator.calculateDurabilityScore
      refine le_min (add_nonneg (add_nonneg ?_ ?_) ?_) (by norm_num)
      · rcases hm : d.activeMaintainersCount with _ | m
        · exact le_refl 0
        · dsimp only
          split_ifs with h
          · have h0 : (0 : ℚ) ≤ (m : ℚ) := by exact_mod_cast hmaint d m rfl hm
            exact le_min (mul_nonneg h0 (by norm_num)) (by norm_num)
          · exact le_refl 0
      · rcases d.topContributorShare with _ | share
        · exact le_refl 0
        · dsimp only
          split_ifs with h
          · exact le_max_right _ _
          · exact le_refl 0
      · rcases d.medianIssueResponseTimeHours with _ | hours
        · exact le_refl 0
        · dsimp only
          split_ifs with h
          · exact le_min (le_max_right _ _) (by norm_num)
          · exact le_refl 0
  · -- durability is capped at 100
    rcases deep with _ | d
    · norm_num [WatchlistGenerator.calculateDurabilityScore]
    · unfold WatchlistGenerator.calculateDurabilityScore
      exact min_le_right _ _
  · -- adoption is non-negative given non-negative counts and ratio
    rcases deep with _ | d
    · norm_num [WatchlistGenerator.calculateAdoptionScore]
    · unfold WatchlistGenerator.calculateAdoptionScore
      refine le_min (add_nonneg (add_nonneg ?_ ?_) ?_) (by norm_num)
      · rcases hm : d.dependentsCount with _ | dc
        · exact le_refl 0
        · dsimp only
          split_ifs with h
          · have h1 : (1 : ℚ) ≤ (dc : ℚ) + 1 := by
              have := hdeps d dc rfl hm
              have : (0 : ℚ) ≤ (dc : ℚ) := by exact_mod_cast this
              linarith
            exact le_min (mul_nonneg (hlog _ h1) (by norm_num)) (by norm_num)
          · exact le_refl 0
      · rcases hm : d.npmDownloads30d with _ | dl
        · exact le_refl 0
        · dsimp only
          split_ifs with h
          · have h1 : (1 : ℚ) ≤ (dl : ℚ) + 1 := by
              have := hdl d dl rfl hm
              have : (0 : ℚ) ≤ (dl : ℚ) := by exact_mod_cast this
              linarith
            exact le_min (mul_nonneg (hlog _ h1) (by norm_num)) (by norm_num)
          · exact le_refl 0
      · rcases hm : d.forkToStarRatio with _ | ratio
        · exact le_refl 0
        · dsimp only
          split_ifs with h
          · have h0 : (0 : ℚ) ≤ ratio := hratio d ratio rfl hm
            exact le_min (mul_nonneg h0 (by norm_num)) (by norm_num)
          · exact le_refl 0
  · -- adoption is capped at 100
    rcases deep with _ | d
    · norm_num [WatchlistGenerator.calculateAdoptionScore]
    · unfold WatchlistGenerator.calculateAdoptionScore
      exact min_le_right _ _

/-- A benign snapshot as the pipeline writes them: ten maintainers, the
other exceptional columns empty. -/
def c4BenignSnap : WatchlistGenerator.WDeepSnap :=
  { commitTrendSlope := none, activeMaintainersCount := some 10,
    topContributorShare := none, medianIssueResponseTimeHours := none,
    dependentsCount := none, npmDownloads30d := none, forkToStarRatio := none }

/-- Witness for the amended C4 at a concrete repo and snapshot. -/
theorem score_range_amended_witness :
    (0 ≤ WatchlistGenerator.calculateMomentumScore 0
          { id := 1, stars := 2500, createdAt := 0, eligible := true } [] []
          (some c4BenignSnap) ∧
     WatchlistGenerator.calculateMomentumScore 0
          { id := 1, stars := 2500, createdAt := 0, eligible := true } [] []
          (some c4BenignSnap) ≤ 100) ∧
    (0 ≤ WatchlistGenerator.calculateDurabilityScore (some c4BenignSnap) ∧
     WatchlistGenerator.calculateDurabilityScore (some c4BenignSnap) ≤ 100) ∧
    (0 ≤ WatchlistGenerator.calculateAdoptionScore (fun _ => 0) (some c4BenignSnap) ∧
     WatchlistGenerator.calculateAdoptionScore (fun _ => 0) (some c4BenignSnap) ≤ 100) :=
  score_range_amended (fun _ => 0) (fun _ _ => le_refl 0) 0
    { id := 1, stars := 2500, createdAt := 0, eligible := true } [] []
    (some c4BenignSnap)
    (fun d m h1 h2 => by
      injection h1 with h1
      subst h1
      injection h2 with h2
      omega)
    (fun d x h1 h2 => by
      injection h1 with h1
      subst h1
      exact absurd h2 (by simp [c4BenignSnap]))
    (fun d x h1 h2 => by
      injection h1 with h1
      subst h1
      exact absurd h2 (by simp [c4BenignSnap]))
    (fun d q h1 h2 => by
      injection h1 with h1
      subst h1
      exact absurd h2 (by simp [c4BenignSnap]))

/-! ## Claims C6 and C8 — refresh_queue's invariant and idempotence -/

open QueueManager

/-- C6: after `refresh_queue()`, assuming every repo had at most one
unprocessed entry beforehand, every eligible repo has exactly one
unprocessed entry and no repo has more than one. -/
theorem refresh_queue_unique_unprocessed (now : Int) (db : QMDB)
    (hpre : ∀ rid, countUnproc db.queue rid ≤ 1) :
    (∀ r ∈ db.repos, r.eligible = true →
      countUnproc (refreshQueue now db).1.queue r.id = 1) ∧
    (∀ rid, countUnproc (refreshQueue now db).1.queue rid ≤ 1) := by
  have h0 : ∀ rid, countUnproc (db.queue.filter (fun e => !shouldClear now e)) rid ≤ 1 := by
    intro rid
    rw [countUnproc_filter_notClear]
    exact hpre rid
  obtain ⟨hle, hmem, _⟩ := foldRefresh_counts now db
    (db.repos.filter (fun r => r.eligible))
    (db.queue.filter (fun e => !shouldClear now e))
    { clearedProcessed := (db.queue.filter (shouldClear now)).length,
      addedToQueue := 0, updatedPriorities := 0 } h0
  have hq : (refreshQueue now db).1.queue =
      ((db.repos.filter (fun r => r.eligible)).foldl (refreshStep now db)
        (db.queue.filter (fun e => !shouldClear now e),
         { clearedProcessed := (db.queue.filter (shouldClear now)).length,
           addedToQueue := 0, updatedPriorities := 0 })).1 := rfl
  refine ⟨?_, ?_⟩
  · intro r hr helig
    rw [hq]
    exact hmem r (List.mem_filter.mpr ⟨hr, helig⟩)
  · intro rid
    rw [hq]
    exact hle rid

/-- A one-repo store with an empty queue. -/
def c6DB : QMDB :=
  { repos := [{ id := 1, eligible := true, firstDiscoveredAt := 0, pushedAt := 0 }],
    discSnapsDesc := fun _ => [], latestDeep := fun _ => none, queue := [] }

/-- Witness for C6 on the one-repo store. -/
theorem refresh_queue_unique_unprocessed_witness :
    (∀ r ∈ c6DB.repos, r.eligible = true →
      countUnproc (refreshQueue 0 c6DB).1.queue r.id = 1) ∧
    (∀ rid, countUnproc (refreshQueue 0 c6DB).1.queue rid ≤ 1) :=
  refresh_queue_unique_unprocessed 0 c6DB
    (fun rid => by simp [countUnproc, c6DB])

/-- C8: `refresh_queue()` is idempotent — with the repos, snapshots and
clock unchanged (and repo ids distinct, as the primary key guarantees), a
second call adds nothing, updates no priorities, and leaves the queue —
every entry's priority and reason included — exactly as the first call
left it. -/
theorem refresh_queue_idempotent (now : Int) (db : QMDB)
    (hids : List.Pairwise (fun a b => a.id ≠ b.id) db.repos) :
    (refreshQueue now (refreshQueue now db).1).2.addedToQueue = 0 ∧
    (refreshQueue now (refreshQueue now db).1).2.updatedPriorities = 0 ∧
    (refreshQueue now (refreshQueue now db).1).1.queue =
      (refreshQueue now db).1.queue := by
  have hq0 : ∀ e ∈ db.queue.filter (fun e => !shouldClear now e),
      shouldClear now e = false := by
    intro e he
    have h2 := (List.mem_filter.mp he).2
    simpa using h2
  rcases hfold : (db.repos.filter (fun r => r.eligible)).foldl (refreshStep now db)
      (db.queue.filter (fun e => !shouldClear now e),
       ({ clearedProcessed := (db.queue.filter (shouldClear now)).length,
          addedToQueue := 0, updatedPriorities := 0 } : RefreshStats)) with ⟨q1, s1⟩
  have h1 : refreshQueue now db = ({ db with queue := q1 }, s1) := by
    simp only [refreshQueue]
    rw [hfold]
  have hclear1 : ∀ e ∈ q1, shouldClear now e = false := by
    have h := foldRefresh_notClear now db (db.repos.filter (fun r => r.eligible))
      (db.queue.filter (fun e => !shouldClear now e))
      ({ clearedProcessed := (db.queue.filter (shouldClear now)).length,
         addedToQueue := 0, updatedPriorities := 0 } : RefreshStats) hq0
    rw [hfold] at h
    exact h
  have hinv : ∀ r ∈ db.repos.filter (fun r => r.eligible), ∃ e,
      firstUnproc q1 r.id = some e ∧ e.priority = (calcPriority now db r).1 := by
    have h := foldRefresh_establishes now db (db.repos.filter (fun r => r.eligible))
      (db.queue.filter (fun e => !shouldClear now e))
      ({ clearedProcessed := (db.queue.filter (shouldClear now)).length,
         addedToQueue := 0, updatedPriorities := 0 } : RefreshStats)
      (hids.sublist (List.filter_sublist _))
    rw [hfold] at h
    exact h
  have hfilter1 : q1.filter (fun e => !shouldClear now e) = q1 :=
    List.filter_eq_self.mpr (fun e he => by simp [hclear1 e he])
  have hinv' : ∀ r ∈ db.repos.filter (fun r => r.eligible),
      ∃ e, firstUnproc q1 r.id = some e ∧
        e.priority = (calcPriority now { db with queue := q1 } r).1 := by
    intro r hr
    obtain ⟨e, hf, hp⟩ := hinv r hr
    exact ⟨e, hf, hp⟩
  have hfold2 := foldRefresh_id now { db with queue := q1 }
      (db.repos.filter (fun r => r.eligible)) q1
      ({ clearedProcessed := (q1.filter (shouldClear now)).length,
         addedToQueue := 0, updatedPriorities := 0 } : RefreshStats) hinv'
  have h2 : refreshQueue now ({ db with queue := q1 } : QMDB) =
      ({ db with queue := q1 },
       ({ clearedProcessed := (q1.filter (shouldClear now)).length,
          addedToQueue := 0, updatedPriorities := 0 } : RefreshStats)) := by
    simp only [refreshQueue]
    rw [hfilter1, hfold2]
  rw [h1]
  rw [h2]
  exact ⟨rfl, rfl, rfl⟩

/-- A one-repo store with an empty queue for the idempotence witness. -/
def c8DB : QMDB :=
  { repos := [{ id := 2, eligible := true, firstDiscoveredAt := 0, pushedAt := 0 }],
    discSnapsDesc := fun _ => [], latestDeep := fun _ => none, queue := [] }

/-- Witness for C8 on the one-repo store. -/
theorem refresh_queue_idempotent_witness :
    (refreshQueue 0 (refreshQueue 0 c8DB).1).2.addedToQueue = 0 ∧
    (refreshQueue 0 (refreshQueue 0 c8DB).1).2.updatedPriorities = 0 ∧
    (refreshQueue 0 (refreshQueue 0 c8DB).1).1.queue =
      (refreshQueue 0 c8DB).1.queue :=
  refresh_queue_idempotent 0 c8DB (by simp [c8DB])
